import Mathlib

/-!
Shallow embedding, in Lean 4, of the two source files of this repository:

* `src/sagemaker/serve/builder/jumpstart_builder.py` — the local-container
  auto-tuning loops `tune_for_djl_jumpstart` and `tune_for_tgi_jumpstart`
  of the `JumpStart` builder mixin;
* `src/sagemaker/pytorch/estimator.py` — the distribution-dictionary
  handling of `PyTorch.__init__` and
  `PyTorch._pytorch_distribution_configuration`.

Python dictionaries are modelled as insertion-ordered association lists with
Python `dict` semantics for assignment (`d[k] = v` overwrites in place when
the key is present, appends otherwise), deletion (`del d[k]`) and
`d.update(other)`.  External collaborators (the deploy-and-benchmark step,
the `_more_performant` comparator, the wall clock sampled by
`datetime.now()`, and the base `Framework._distribution_configuration`) are
taken as explicit parameters, so every theorem quantifies over their
behaviour unless a claim pins one of them down.
-/

set_option autoImplicit false

universe u v

/-! ## Association lists with Python dict semantics -/

/-- First-match lookup, the reading of `d[k]` / `d.get(k)` on a dict whose
keys are unique. -/
def alookup {κ : Type u} {ν : Type v} [DecidableEq κ] : List (κ × ν) → κ → Option ν
  | [], _ => none
  | (k', v) :: rest, k => if k' = k then some v else alookup rest k

/-- Python dict assignment `d[k] = v`: overwrite in place when the key is
present, append at the end otherwise. -/
def ainsert {κ : Type u} {ν : Type v} [DecidableEq κ] : List (κ × ν) → κ → ν → List (κ × ν)
  | [], k, v => [(k, v)]
  | (k', v') :: rest, k, v =>
    if k' = k then (k, v) :: rest else (k', v') :: ainsert rest k v

/-- Python `del d[k]`: remove the (unique) entry with the given key. -/
def aerase {κ : Type u} {ν : Type v} [DecidableEq κ] : List (κ × ν) → κ → List (κ × ν)
  | [], _ => []
  | (k', v') :: rest, k => if k' = k then rest else (k', v') :: aerase rest k

/-- Python `k in d`. -/
def acontains {κ : Type u} {ν : Type v} [DecidableEq κ] (m : List (κ × ν)) (k : κ) : Bool :=
  (alookup m k).isSome

/-- Python `d.update(other)`: assign every entry of `other` into `d`, in
order.  Keys of `d` missing from `other` keep their values; keys of `other`
missing from `d` are appended. -/
def aupdate {κ : Type u} {ν : Type v} [DecidableEq κ] (m other : List (κ × ν)) : List (κ × ν) :=
  other.foldl (fun acc kv => ainsert acc kv.1 kv.2) m

/-- Well-formedness of a Python dict image: each key occurs at most once. -/
def akeysNodup {κ : Type u} {ν : Type v} (m : List (κ × ν)) : Prop :=
  (m.map Prod.fst).Nodup

/-- Last element of a list, as an `Option`. -/
def lastP {α : Type u} : List α → Option α
  | [] => none
  | [a] => some a
  | _ :: b :: rest => lastP (b :: rest)

/-! ## The tuning model (`jumpstart_builder.py`) -/

/-- The two deployment modes `tune_for_djl_jumpstart` /
`tune_for_tgi_jumpstart` distinguish (`sagemaker.serve.mode.function_pointers.Mode`). -/
inductive Mode
  | LOCAL_CONTAINER
  | SAGEMAKER_ENDPOINT
deriving DecidableEq

/-- The measurements one successful deploy-and-benchmark of a candidate
produces: `_serial_benchmark` yields `(avg_latency, p90, avg_tokens_per_second)`
and `_concurrent_benchmark` yields `(throughput_per_second, standard_deviation)`. -/
structure Bench where
  avg_latency : Nat
  p90 : Nat
  avg_tokens_per_second : Nat
  throughput_per_second : Nat
  standard_deviation : Nat
deriving DecidableEq

/-- The closed failure taxonomy of one candidate's deploy-and-benchmark
attempt: the five named exception classes caught by the tuning loops plus
the `except Exception` catch-all. -/
inductive TuneFailure
  | localDeepPing
  | localModelOutOfMemory
  | localModelInvocation
  | localModelLoad
  | skipTuningCombo
  | uncovered
deriving DecidableEq

/-- The `best_tuned_combination` record the loop keeps:
`[avg_latency, tensor_parallel_degree, None, p90, avg_tokens_per_second,
throughput_per_second, standard_deviation]` (the constant `None` third slot
is omitted). -/
structure Combo where
  avg_latency : Nat
  tensor_parallel_degree : Nat
  p90 : Nat
  avg_tokens_per_second : Nat
  throughput_per_second : Nat
  standard_deviation : Nat
deriving DecidableEq

/-- One row of `benchmark_results`:
`[tested_env, p90, avg_tokens_per_second, throughput_per_second,
standard_deviation]`, stored under the key `avg_latency`. -/
structure Row where
  tested_env : List (String × String)
  p90 : Nat
  avg_tokens_per_second : Nat
  throughput_per_second : Nat
  standard_deviation : Nat
deriving DecidableEq

/-- Ghost record of one successfully benchmarked candidate: its position in
the admissible sequence, the tensor-parallel degree tried, the measurements,
and the environment dict in force when it was benchmarked (`tested_env`). -/
structure SuccCand where
  idx : Nat
  degree : Nat
  bench : Bench
  tested_env : List (String × String)
deriving DecidableEq

/-- The `Combo` a successful candidate contributes to `best_tuned_combination`. -/
def comboOf (sc : SuccCand) : Combo :=
  ⟨sc.bench.avg_latency, sc.degree, sc.bench.p90, sc.bench.avg_tokens_per_second,
    sc.bench.throughput_per_second, sc.bench.standard_deviation⟩

/-- The `benchmark_results` row a successful candidate writes. -/
def rowOf (sc : SuccCand) : Row :=
  ⟨sc.tested_env, sc.bench.p90, sc.bench.avg_tokens_per_second,
    sc.bench.throughput_per_second, sc.bench.standard_deviation⟩

/-- One comparison step of the loop:
`if not best: best = combo elif _more_performant(best, combo): best = combo`. -/
def bestStep (mp : Combo → Combo → Bool) (b : Option Combo) (c : Combo) : Option Combo :=
  match b with
  | none => some c
  | some prev => if mp prev c then some c else some prev

/-- Folding the comparator over successive candidates in sequence order, as
the loop does. -/
def foldBest (mp : Combo → Combo → Bool) (b : Option Combo) (cs : List Combo) : Option Combo :=
  cs.foldl (bestStep mp) b

/-- The row the last success with a given `avg_latency` would leave in a
latency-keyed table (the survivor after dict-overwrite). -/
def lastRow : List SuccCand → Nat → Option Row
  | [], _ => none
  | sc :: rest, latency =>
    match lastRow rest latency with
    | some r => some r
    | none => if sc.bench.avg_latency = latency then some (rowOf sc) else none

/-- The mutable state of one tuning loop, plus ghost fields `attempted`
(each `(index, degree)` for which the deploy call was issued) and
`succeeded` (the successfully benchmarked candidates, in order). -/
structure LoopState where
  env : List (String × String)
  benchmark_results : List (Nat × Row)
  best_tuned_combination : Option Combo
  attempted : List (Nat × Nat)
  succeeded : List SuccCand
deriving DecidableEq

/-- What a tune call hands back: the model's environment dict after the
call, the benchmark-results table, and the ghost attempt/success logs. -/
structure TuneResult where
  env : List (String × String)
  benchmark_results : List (Nat × Row)
  attempted : List (Nat × Nat)
  succeeded : List SuccCand
deriving DecidableEq

/-- The `for tensor_parallel_degree in admissible_tensor_parallel_degrees`
loop shared by `tune_for_djl_jumpstart` and `tune_for_tgi_jumpstart`.
`bench i d` is the outcome of candidate `i`'s entire `try` body (deploy,
serial benchmark, concurrent benchmark): a `Bench` on success, or the raised
exception's kind.  `clock n` is the `n`-th reading of `datetime.now()`
(reading `0` is taken when `timeout` is computed, reading `i + 1` at the top
of iteration `i`).  Every `except` arm breaks, so a failure returns the state
at once with only the pre-`try` env mutation and the attempt recorded. -/
def tuneGo (mp : Combo → Combo → Bool) (key : String)
    (bench : Nat → Nat → Except TuneFailure Bench) (clock : Nat → Nat) (timeoutAt : Nat) :
    List Nat → Nat → LoopState → LoopState
  | [], _, s => s
  | d :: rest, i, s =>
    if timeoutAt < clock (i + 1) then s
    else
      let env1 := ainsert s.env key (toString d)
      match bench i d with
      | Except.error _ =>
          { s with env := env1, attempted := s.attempted ++ [(i, d)] }
      | Except.ok b =>
          let row : Row := ⟨env1, b.p90, b.avg_tokens_per_second,
            b.throughput_per_second, b.standard_deviation⟩
          let combo : Combo := ⟨b.avg_latency, d, b.p90, b.avg_tokens_per_second,
            b.throughput_per_second, b.standard_deviation⟩
          tuneGo mp key bench clock timeoutAt rest (i + 1)
            { env := env1,
              benchmark_results := ainsert s.benchmark_results b.avg_latency row,
              best_tuned_combination := bestStep mp s.best_tuned_combination combo,
              attempted := s.attempted ++ [(i, d)],
              succeeded := s.succeeded ++ [⟨i, d, b, env1⟩] }

/-- The common body of `tune_for_djl_jumpstart` and `tune_for_tgi_jumpstart`,
which differ only in the environment key they sweep.  In any mode other than
`LOCAL_CONTAINER` the model is returned untouched.  Otherwise the env is
snapshotted (`copy.deepcopy`), the loop runs with deadline
`clock 0 + max_tuning_duration`, and afterwards either the best candidate's
degree is written back (`env.update({key: str(best[1])})`) or the snapshot is
applied with `env.update(initial_model_configuration)`. -/
def tuneCore (mp : Combo → Combo → Bool) (key : String) (degrees : List Nat)
    (bench : Nat → Nat → Except TuneFailure Bench) (clock : Nat → Nat)
    (mode : Mode) (env0 : List (String × String)) (max_tuning_duration : Nat) : TuneResult :=
  if mode ≠ Mode.LOCAL_CONTAINER then
    ⟨env0, [], [], []⟩
  else
    let initial_model_configuration := env0
    let timeoutAt := clock 0 + max_tuning_duration
    let final := tuneGo mp key bench clock timeoutAt degrees 0 ⟨env0, [], none, [], []⟩
    match final.best_tuned_combination with
    | some best =>
        ⟨ainsert final.env key (toString best.tensor_parallel_degree),
          final.benchmark_results, final.attempted, final.succeeded⟩
    | none =>
        ⟨aupdate final.env initial_model_configuration,
          final.benchmark_results, final.attempted, final.succeeded⟩

/-- `JumpStart.tune_for_djl_jumpstart`: sweeps `OPTION_TENSOR_PARALLEL_DEGREE`. -/
def tune_for_djl_jumpstart (mp : Combo → Combo → Bool) (degrees : List Nat)
    (bench : Nat → Nat → Except TuneFailure Bench) (clock : Nat → Nat)
    (mode : Mode) (env0 : List (String × String)) (max_tuning_duration : Nat) : TuneResult :=
  tuneCore mp "OPTION_TENSOR_PARALLEL_DEGREE" degrees bench clock mode env0 max_tuning_duration

/-- `JumpStart.tune_for_tgi_jumpstart`: sweeps `SM_NUM_GPUS`. -/
def tune_for_tgi_jumpstart (mp : Combo → Combo → Bool) (degrees : List Nat)
    (bench : Nat → Nat → Except TuneFailure Bench) (clock : Nat → Nat)
    (mode : Mode) (env0 : List (String × String)) (max_tuning_duration : Nat) : TuneResult :=
  tuneCore mp "SM_NUM_GPUS" degrees bench clock mode env0 max_tuning_duration

/-! ## The PyTorch estimator model (`estimator.py`) -/

/-- Python values stored in a distribution dictionary: strings, booleans,
and nested dictionaries. -/
inductive PyVal
  | s (v : String)
  | b (v : Bool)
  | dict (entries : List (String × PyVal))

/-- A distribution dictionary. -/
def Distribution : Type := List (String × PyVal)

/-- `PyTorch.LAUNCH_PYTORCH_DDP_ENV_NAME`. -/
def LAUNCH_PYTORCH_DDP_ENV_NAME : String := "sagemaker_pytorch_ddp_enabled"

/-- `PyTorch.LAUNCH_TORCH_DISTRIBUTED_ENV_NAME`. -/
def LAUNCH_TORCH_DISTRIBUTED_ENV_NAME : String := "sagemaker_torch_distributed_enabled"

/-- `PyTorch.INSTANCE_TYPE_ENV_NAME`. -/
def INSTANCE_TYPE_ENV_NAME : String := "sagemaker_instance_type"

/-- The error text of
`ValueError("Cannot use both pytorchddp and smdistributed distribution options together.", distribution)`. -/
def bothDdpMessage : String :=
  "Cannot use both pytorchddp and smdistributed distribution options together."

/-- Modelled from the spec: `sagemaker.fw_utils.validate_distribution`, which
is absent from `src/`.  The spec's §4.3 requires only that distribution
validation "reject configurations that name two mutually-exclusive strategies
simultaneously"; otherwise the mapping passes through.  The model rejects the
`pytorchddp`/`smdistributed` conflict and returns the dictionary unchanged in
every other case. -/
def validate_distribution (d : Distribution) : Except String Distribution :=
  if acontains d "pytorchddp" ∧ acontains d "smdistributed" then
    Except.error bothDdpMessage
  else
    Except.ok d

/-- The distribution-handling section of `PyTorch.__init__` (the block
guarded by `if distribution is not None:` plus the final
`self.distribution = distribution or {}`), parameterised over the
validation function.  Returns the stored `self.distribution` together with
the value the caller's dictionary object holds after the call: the rewrite
operates on `distribution.copy()`, so the caller's object is returned as it
came in. -/
def pytorchInitDistribution (validate : Distribution → Except String Distribution)
    (distribution : Option Distribution) :
    Except String (Distribution × Option Distribution) :=
  match distribution with
  | none => Except.ok ([], none)
  | some d =>
    if acontains d "pytorchddp" then
      if acontains d "smdistributed" then
        Except.error bothDdpMessage
      else
        let copied := d
        let rewritten :=
          ainsert copied "smdistributed"
            (PyVal.dict [("dataparallel", (alookup d "pytorchddp").getD (PyVal.dict []))])
        let rewritten2 := aerase rewritten "pytorchddp"
        match validate rewritten2 with
        | Except.error e => Except.error e
        | Except.ok validated => Except.ok (validated, some d)
    else
      match validate d with
      | Except.error e => Except.error e
      | Except.ok validated => Except.ok (validated, some d)

/-- The truthiness of `distribution.get(k).get("enabled", False)`:
`False` unless the entry is a dictionary whose `"enabled"` is a true boolean. -/
def pyEnabledFlag (d : Distribution) (k : String) : Bool :=
  match alookup d k with
  | some (PyVal.dict settings) =>
    match alookup settings "enabled" with
    | some (PyVal.b v) => v
    | _ => false
  | _ => false

/-- The `pytorch_ddp_enabled` flag computed at the top of
`PyTorch._pytorch_distribution_configuration`. -/
def pytorchDdpEnabledIn (d : Distribution) : Bool :=
  if acontains d "pytorchddp" then pyEnabledFlag d "pytorchddp" else false

/-- The `torch_distributed_enabled` flag computed at the top of
`PyTorch._pytorch_distribution_configuration`: the `elif` arm runs only when
`"pytorchddp"` is absent, so with `"pytorchddp"` present the flag keeps its
initial `False`. -/
def torchDistributedEnabledIn (d : Distribution) : Bool :=
  if acontains d "pytorchddp" then false
  else if acontains d "torch_distributed" then pyEnabledFlag d "torch_distributed"
  else false

/-- `PyTorch._pytorch_distribution_configuration`, parameterised over the
base `Framework._distribution_configuration` (absent from `src/`) and over
`self.instance_type`. -/
def pytorch_distribution_configuration
    (base : Distribution → List (String × PyVal)) (instance_type : Option String)
    (distribution : Distribution) : List (String × PyVal) :=
  let pytorch_ddp_enabled := pytorchDdpEnabledIn distribution
  let torch_distributed_enabled := torchDistributedEnabledIn distribution
  if pytorch_ddp_enabled then
    let c1 := ainsert [] LAUNCH_PYTORCH_DDP_ENV_NAME (PyVal.b pytorch_ddp_enabled)
    match instance_type with
    | some it => ainsert c1 INSTANCE_TYPE_ENV_NAME (PyVal.s it)
    | none => c1
  else if torch_distributed_enabled then
    let c0 := if acontains distribution "smdistributed" then base distribution else []
    let c1 := ainsert c0 LAUNCH_TORCH_DISTRIBUTED_ENV_NAME (PyVal.b torch_distributed_enabled)
    match instance_type with
    | some it => ainsert c1 INSTANCE_TYPE_ENV_NAME (PyVal.s it)
    | none => c1
  else
    base distribution

/-- Inserting the rows of a run of successes into a latency-keyed table. -/
def insRows (m : List (Nat × Row)) (u : List SuccCand) : List (Nat × Row) :=
  u.foldl (fun acc sc => ainsert acc sc.bench.avg_latency (rowOf sc)) m

/-! ## Association-list lemmas -/

theorem akeysNodup_cons {κ : Type u} {ν : Type v} (k0 : κ) (v0 : ν) (tl : List (κ × ν)) :
    akeysNodup ((k0, v0) :: tl) ↔ k0 ∉ tl.map Prod.fst ∧ akeysNodup tl := by
  unfold akeysNodup
  rw [List.map_cons, List.nodup_cons]

theorem alookup_ainsert {κ : Type u} {ν : Type v} [DecidableEq κ]
    (m : List (κ × ν)) (k k' : κ) (v : ν) :
    alookup (ainsert m k v) k' = if k = k' then some v else alookup m k' := by
  induction m with
  | nil => simp [ainsert, alookup]
  | cons hd tl ih =>
    obtain ⟨k0, v0⟩ := hd
    by_cases h0 : k0 = k
    · subst h0
      by_cases h1 : k0 = k'
      · subst h1; simp [ainsert, alookup]
      · simp [ainsert, alookup, h1]
    · by_cases h1 : k0 = k'
      · subst h1
        have hkk : ¬ k = k0 := fun hh => h0 hh.symm
        simp [ainsert, alookup, h0, hkk]
      · simp [ainsert, alookup, h0, h1, ih]

theorem alookup_ainsert_self {κ : Type u} {ν : Type v} [DecidableEq κ]
    (m : List (κ × ν)) (k : κ) (v : ν) :
    alookup (ainsert m k v) k = some v := by
  simp [alookup_ainsert]

theorem alookup_ainsert_ne {κ : Type u} {ν : Type v} [DecidableEq κ]
    (m : List (κ × ν)) (k k' : κ) (v : ν) (h : k ≠ k') :
    alookup (ainsert m k v) k' = alookup m k' := by
  simp [alookup_ainsert, h]

theorem ainsert_ainsert_same {κ : Type u} {ν : Type v} [DecidableEq κ]
    (m : List (κ × ν)) (k : κ) (v w : ν) :
    ainsert (ainsert m k v) k w = ainsert m k w := by
  induction m with
  | nil => simp [ainsert]
  | cons hd tl ih =>
    obtain ⟨k0, v0⟩ := hd
    by_cases h0 : k0 = k
    · subst h0; simp [ainsert]
    · simp [ainsert, h0, ih]

theorem alookup_eq_none_of_not_mem_keys {κ : Type u} {ν : Type v} [DecidableEq κ]
    (m : List (κ × ν)) (k : κ) (h : k ∉ m.map Prod.fst) :
    alookup m k = none := by
  induction m with
  | nil => simp [alookup]
  | cons hd tl ih =>
    obtain ⟨k0, v0⟩ := hd
    rw [List.map_cons, List.mem_cons] at h
    push_neg at h
    have h0 : ¬ k0 = k := fun hh => h.1 hh.symm
    rw [alookup, if_neg h0]
    exact ih h.2

theorem alookup_aupdate_none {κ : Type u} {ν : Type v} [DecidableEq κ]
    (m e : List (κ × ν)) (k : κ) (h : alookup e k = none) :
    alookup (aupdate m e) k = alookup m k := by
  induction e generalizing m with
  | nil => simp [aupdate]
  | cons hd tl ih =>
    obtain ⟨k0, v0⟩ := hd
    have hne : k0 ≠ k := by
      intro hh
      rw [alookup, if_pos hh] at h
      exact Option.noConfusion h
    have htl : alookup tl k = none := by
      rw [alookup, if_neg hne] at h
      exact h
    show alookup (aupdate (ainsert m k0 v0) tl) k = alookup m k
    rw [ih (ainsert m k0 v0) htl, alookup_ainsert_ne m k0 k v0 hne]

theorem alookup_aupdate_some {κ : Type u} {ν : Type v} [DecidableEq κ]
    (m e : List (κ × ν)) (k : κ) (v : ν) (hnd : akeysNodup e) (h : alookup e k = some v) :
    alookup (aupdate m e) k = some v := by
  induction e generalizing m with
  | nil => simp [alookup] at h
  | cons hd tl ih =>
    obtain ⟨k0, v0⟩ := hd
    obtain ⟨hk0, hndtl⟩ := (akeysNodup_cons k0 v0 tl).mp hnd
    by_cases hne : k0 = k
    · subst hne
      have hv : v0 = v := by
        rw [alookup, if_pos rfl] at h
        exact Option.some.inj h
      subst hv
      have htl : alookup tl k0 = none :=
        alookup_eq_none_of_not_mem_keys tl k0 hk0
      show alookup (aupdate (ainsert m k0 v0) tl) k0 = some v0
      rw [alookup_aupdate_none (ainsert m k0 v0) tl k0 htl, alookup_ainsert_self]
    · have htl : alookup tl k = some v := by
        rw [alookup, if_neg hne] at h
        exact h
      exact ih (ainsert m k0 v0) hndtl htl

theorem alookup_aupdate {κ : Type u} {ν : Type v} [DecidableEq κ]
    (m e : List (κ × ν)) (k : κ) (hnd : akeysNodup e) :
    alookup (aupdate m e) k =
      match alookup e k with
      | some v => some v
      | none => alookup m k := by
  cases h : alookup e k with
  | none => simpa using alookup_aupdate_none m e k h
  | some v => simpa using alookup_aupdate_some m e k v hnd h

theorem alookup_aerase_ne {κ : Type u} {ν : Type v} [DecidableEq κ]
    (m : List (κ × ν)) (k k' : κ) (h : k' ≠ k) :
    alookup (aerase m k) k' = alookup m k' := by
  induction m with
  | nil => simp [aerase]
  | cons hd tl ih =>
    obtain ⟨k0, v0⟩ := hd
    by_cases h0 : k0 = k
    · subst h0
      have hne : ¬ k0 = k' := fun hh => h (hh.symm)
      rw [aerase, if_pos rfl, alookup, if_neg hne]
    · rw [aerase, if_neg h0, alookup, alookup]
      by_cases h1 : k0 = k'
      · rw [if_pos h1, if_pos h1]
      · rw [if_neg h1, if_neg h1, ih]

theorem alookup_aerase_self {κ : Type u} {ν : Type v} [DecidableEq κ]
    (m : List (κ × ν)) (k : κ) (hnd : akeysNodup m) :
    alookup (aerase m k) k = none := by
  induction m with
  | nil => simp [aerase, alookup]
  | cons hd tl ih =>
    obtain ⟨k0, v0⟩ := hd
    obtain ⟨hk0, hndtl⟩ := (akeysNodup_cons k0 v0 tl).mp hnd
    by_cases h0 : k0 = k
    · subst h0
      rw [aerase, if_pos rfl]
      exact alookup_eq_none_of_not_mem_keys tl k0 hk0
    · rw [aerase, if_neg h0, alookup, if_neg h0]
      exact ih hndtl

theorem ainsert_keys {κ : Type u} {ν : Type v} [DecidableEq κ]
    (m : List (κ × ν)) (k : κ) (v : ν) :
    (ainsert m k v).map Prod.fst = m.map Prod.fst ∨
      (ainsert m k v).map Prod.fst = m.map Prod.fst ++ [k] := by
  induction m with
  | nil => right; simp [ainsert]
  | cons hd tl ih =>
    obtain ⟨k0, v0⟩ := hd
    by_cases h0 : k0 = k
    · subst h0; left; simp [ainsert]
    · rcases ih with h | h
      · left; simp [ainsert, h0, h]
      · right; simp [ainsert, h0, h]

theorem akeysNodup_ainsert {κ : Type u} {ν : Type v} [DecidableEq κ]
    (m : List (κ × ν)) (k : κ) (v : ν) (hnd : akeysNodup m) :
    akeysNodup (ainsert m k v) := by
  induction m with
  | nil => simp [ainsert, akeysNodup]
  | cons hd tl ih =>
    obtain ⟨k0, v0⟩ := hd
    obtain ⟨hk0, hndtl⟩ := (akeysNodup_cons k0 v0 tl).mp hnd
    by_cases h0 : k0 = k
    · subst h0
      rw [ainsert, if_pos rfl]
      exact (akeysNodup_cons k0 v tl).mpr ⟨hk0, hndtl⟩
    · rw [ainsert, if_neg h0]
      refine (akeysNodup_cons k0 v0 (ainsert tl k v)).mpr ⟨?_, ih hndtl⟩
      rcases ainsert_keys tl k v with h | h
      · rw [h]; exact hk0
      · rw [h]
        intro hmem
        rcases List.mem_append.mp hmem with hmem | hmem
        · exact hk0 hmem
        · exact h0 (List.mem_singleton.mp hmem)

theorem acontains_ainsert_self {κ : Type u} {ν : Type v} [DecidableEq κ]
    (m : List (κ × ν)) (k : κ) (v : ν) :
    acontains (ainsert m k v) k = true := by
  simp [acontains, alookup_ainsert_self]

theorem acontains_ainsert_mono {κ : Type u} {ν : Type v} [DecidableEq κ]
    (m : List (κ × ν)) (k k' : κ) (v : ν) (h : acontains m k' = true) :
    acontains (ainsert m k v) k' = true := by
  by_cases hk : k = k'
  · subst hk; exact acontains_ainsert_self m k v
  · simpa [acontains, alookup_ainsert_ne m k k' v hk] using h

theorem length_ainsert_le {κ : Type u} {ν : Type v} [DecidableEq κ]
    (m : List (κ × ν)) (k : κ) (v : ν) :
    (ainsert m k v).length ≤ m.length + 1 := by
  induction m with
  | nil => simp [ainsert]
  | cons hd tl ih =>
    obtain ⟨k0, v0⟩ := hd
    by_cases h0 : k0 = k
    · subst h0; simp [ainsert]
    · rw [ainsert, if_neg h0, List.length_cons, List.length_cons]
      omega

theorem length_ainsert_of_contains {κ : Type u} {ν : Type v} [DecidableEq κ]
    (m : List (κ × ν)) (k : κ) (v : ν) (h : acontains m k = true) :
    (ainsert m k v).length = m.length := by
  induction m with
  | nil => simp [acontains, alookup] at h
  | cons hd tl ih =>
    obtain ⟨k0, v0⟩ := hd
    by_cases h0 : k0 = k
    · subst h0; simp [ainsert]
    · have htl : acontains tl k = true := by
        have hh : alookup ((k0, v0) :: tl) k = alookup tl k := by
          rw [alookup, if_neg h0]
        simpa [acontains, hh] using h
      rw [ainsert, if_neg h0, List.length_cons, List.length_cons, ih htl]

/-! ## Small list and fold lemmas -/

theorem lastP_cons_cons {α : Type u} (a b : α) (l : List α) :
    lastP (a :: b :: l) = lastP (b :: l) := rfl

theorem lastP_isSome {α : Type u} (b : α) (bs : List α) :
    ∃ q, lastP (b :: bs) = some q := by
  induction bs generalizing b with
  | nil => exact ⟨b, rfl⟩
  | cons c cs ih => exact ih c

theorem lastP_cons_of_ne_nil {α : Type u} (a : α) (l : List α) (h : l ≠ []) :
    lastP (a :: l) = lastP l := by
  cases l with
  | nil => exact absurd rfl h
  | cons b bs => rfl

theorem foldBest_cons (mp : Combo → Combo → Bool) (b : Option Combo) (c : Combo)
    (cs : List Combo) :
    foldBest mp b (c :: cs) = foldBest mp (bestStep mp b c) cs := rfl

theorem bestStep_isSome (mp : Combo → Combo → Bool) (b : Option Combo) (c : Combo) :
    ∃ r, bestStep mp b c = some r := by
  cases b with
  | none => exact ⟨c, rfl⟩
  | some prev =>
    by_cases h : mp prev c
    · exact ⟨c, by simp [bestStep, h]⟩
    · exact ⟨prev, by simp [bestStep, h]⟩

theorem foldBest_isSome (mp : Combo → Combo → Bool) (cs : List Combo) (b : Combo) :
    ∃ q, foldBest mp (some b) cs = some q := by
  induction cs generalizing b with
  | nil => exact ⟨b, rfl⟩
  | cons c cs ih =>
    obtain ⟨r, hr⟩ := bestStep_isSome mp (some b) c
    rw [foldBest_cons, hr]
    exact ih r

theorem foldBest_mem (mp : Combo → Combo → Bool) (cs : List Combo) (b : Option Combo)
    (r : Combo) (h : foldBest mp b cs = some r) :
    b = some r ∨ r ∈ cs := by
  induction cs generalizing b with
  | nil => left; exact h
  | cons c cs ih =>
    rw [foldBest_cons] at h
    rcases ih (bestStep mp b c) h with hstep | hmem
    · cases hb : b with
      | none =>
        rw [hb] at hstep
        right
        rw [show c = r from Option.some.inj hstep]
        exact List.mem_cons_self r cs
      | some prev =>
        rw [hb] at hstep
        by_cases hmp : mp prev c
        · right
          rw [bestStep, if_pos hmp] at hstep
          rw [show c = r from Option.some.inj hstep]
          exact List.mem_cons_self r cs
        · left
          rw [bestStep, if_neg hmp] at hstep
          exact hstep
    · right; exact List.mem_cons_of_mem c hmem

theorem insRows_nil (m : List (Nat × Row)) : insRows m [] = m := rfl

theorem insRows_cons (m : List (Nat × Row)) (sc : SuccCand) (u : List SuccCand) :
    insRows m (sc :: u) = insRows (ainsert m sc.bench.avg_latency (rowOf sc)) u := rfl

theorem insRows_append (m : List (Nat × Row)) (u1 u2 : List SuccCand) :
    insRows m (u1 ++ u2) = insRows (insRows m u1) u2 := by
  unfold insRows
  rw [List.foldl_append]

theorem alookup_insRows (u : List SuccCand) (m : List (Nat × Row)) (latency : Nat) :
    alookup (insRows m u) latency =
      match lastRow u latency with
      | some r => some r
      | none => alookup m latency := by
  induction u generalizing m with
  | nil => simp [insRows, lastRow]
  | cons sc rest ih =>
    rw [insRows_cons, ih]
    rw [lastRow]
    cases hr : lastRow rest latency with
    | some r => simp
    | none =>
      by_cases hl : sc.bench.avg_latency = latency
      · simp only [if_pos hl]
        rw [← hl, alookup_ainsert_self]
      · simp only [if_neg hl]
        rw [alookup_ainsert_ne _ _ _ _ hl]

theorem lastRow_append (u1 u2 : List SuccCand) (latency : Nat) :
    lastRow (u1 ++ u2) latency =
      match lastRow u2 latency with
      | some r => some r
      | none => lastRow u1 latency := by
  induction u1 with
  | nil => cases hr : lastRow u2 latency <;> simp [lastRow, hr]
  | cons sc rest ih =>
    rw [List.cons_append, lastRow, ih, lastRow]
    cases hr : lastRow u2 latency <;> cases hrest : lastRow rest latency <;> simp

theorem lastRow_cons_isSome (sc : SuccCand) (u : List SuccCand) (latency : Nat)
    (h : sc.bench.avg_latency = latency) :
    ∃ r, lastRow (sc :: u) latency = some r := by
  rw [lastRow]
  cases hr : lastRow u latency with
  | some r => exact ⟨r, rfl⟩
  | none => exact ⟨rowOf sc, by simp [h]⟩

theorem length_insRows_le (u : List SuccCand) (m : List (Nat × Row)) :
    (insRows m u).length ≤ m.length + u.length := by
  induction u generalizing m with
  | nil => simp [insRows]
  | cons sc rest ih =>
    rw [insRows_cons]
    calc (insRows (ainsert m sc.bench.avg_latency (rowOf sc)) rest).length
        ≤ (ainsert m sc.bench.avg_latency (rowOf sc)).length + rest.length := ih _
      _ ≤ m.length + 1 + rest.length := by
          have := length_ainsert_le m sc.bench.avg_latency (rowOf sc)
          omega
      _ = m.length + (sc :: rest).length := by simp [List.length_cons]; omega

theorem acontains_insRows_mono (u : List SuccCand) (m : List (Nat × Row)) (latency : Nat)
    (h : acontains m latency = true) :
    acontains (insRows m u) latency = true := by
  induction u generalizing m with
  | nil => simpa [insRows] using h
  | cons sc rest ih =>
    rw [insRows_cons]
    exact ih _ (acontains_ainsert_mono m sc.bench.avg_latency latency (rowOf sc) h)

/-! ## Unfolding lemmas for the tuning loop -/

theorem tuneGo_nil (mp : Combo → Combo → Bool) (key : String)
    (bench : Nat → Nat → Except TuneFailure Bench) (clock : Nat → Nat) (T i : Nat)
    (s : LoopState) :
    tuneGo mp key bench clock T [] i s = s := rfl

theorem tuneGo_cons_timeout (mp : Combo → Combo → Bool) (key : String)
    (bench : Nat → Nat → Except TuneFailure Bench) (clock : Nat → Nat) (T i d : Nat)
    (rest : List Nat) (s : LoopState) (h : T < clock (i + 1)) :
    tuneGo mp key bench clock T (d :: rest) i s = s := by
  rw [tuneGo]
  simp [h]

theorem tuneGo_cons_error (mp : Combo → Combo → Bool) (key : String)
    (bench : Nat → Nat → Except TuneFailure Bench) (clock : Nat → Nat) (T i d : Nat)
    (rest : List Nat) (s : LoopState) (e : TuneFailure)
    (h : ¬ T < clock (i + 1)) (he : bench i d = Except.error e) :
    tuneGo mp key bench clock T (d :: rest) i s =
      { s with env := ainsert s.env key (toString d),
               attempted := s.attempted ++ [(i, d)] } := by
  rw [tuneGo]
  simp [h, he]

theorem tuneGo_cons_ok (mp : Combo → Combo → Bool) (key : String)
    (bench : Nat → Nat → Except TuneFailure Bench) (clock : Nat → Nat) (T i d : Nat)
    (rest : List Nat) (s : LoopState) (b : Bench)
    (h : ¬ T < clock (i + 1)) (hb : bench i d = Except.ok b) :
    tuneGo mp key bench clock T (d :: rest) i s =
      tuneGo mp key bench clock T rest (i + 1)
        { env := ainsert s.env key (toString d),
          benchmark_results := ainsert s.benchmark_results b.avg_latency
            ⟨ainsert s.env key (toString d), b.p90, b.avg_tokens_per_second,
              b.throughput_per_second, b.standard_deviation⟩,
          best_tuned_combination := bestStep mp s.best_tuned_combination
            ⟨b.avg_latency, d, b.p90, b.avg_tokens_per_second,
              b.throughput_per_second, b.standard_deviation⟩,
          attempted := s.attempted ++ [(i, d)],
          succeeded := s.succeeded ++ [⟨i, d, b, ainsert s.env key (toString d)⟩] } := by
  rw [tuneGo]
  simp [h, hb]

/-- Master invariant of one run of the shared tuning loop, relating the final
state to the ghost logs: the attempts and successes extend the incoming ones
by some `t` and `u`; the best combination is the comparator fold over the new
successes in order; the results table is the latency-keyed insertion of their
rows; the env equals the incoming env with the key set to the last attempted
degree (if any attempt happened); every attempt's loop-top clock reading is
within the deadline; a failed attempt is the last one; a successful attempt
is recorded; and every success was attempted. -/
theorem tuneGo_spec (mp : Combo → Combo → Bool) (key : String)
    (bench : Nat → Nat → Except TuneFailure Bench) (clock : Nat → Nat) (T : Nat) :
    ∀ (ds : List Nat) (i : Nat) (s : LoopState),
      ∃ t u,
        (tuneGo mp key bench clock T ds i s).attempted = s.attempted ++ t ∧
        (tuneGo mp key bench clock T ds i s).succeeded = s.succeeded ++ u ∧
        (tuneGo mp key bench clock T ds i s).best_tuned_combination =
          foldBest mp s.best_tuned_combination (u.map comboOf) ∧
        (tuneGo mp key bench clock T ds i s).benchmark_results =
          insRows s.benchmark_results u ∧
        ((tuneGo mp key bench clock T ds i s).env =
          match lastP t with
          | none => s.env
          | some p => ainsert s.env key (toString p.2)) ∧
        (∀ p ∈ t, clock (p.1 + 1) ≤ T) ∧
        (∀ p ∈ t, ∀ e, bench p.1 p.2 = Except.error e → lastP t = some p) ∧
        (∀ p ∈ t, ∀ b, bench p.1 p.2 = Except.ok b →
          ∃ te, SuccCand.mk p.1 p.2 b te ∈ u) ∧
        (∀ sc ∈ u, (sc.idx, sc.degree) ∈ t) := by
  intro ds
  induction ds with
  | nil =>
    intro i s
    refine ⟨[], [], ?_, ?_, ?_, ?_, ?_, ?_, ?_, ?_, ?_⟩ <;>
      simp [tuneGo_nil, foldBest, insRows, lastP]
  | cons d rest ih =>
    intro i s
    by_cases hT : T < clock (i + 1)
    · rw [tuneGo_cons_timeout mp key bench clock T i d rest s hT]
      refine ⟨[], [], ?_, ?_, ?_, ?_, ?_, ?_, ?_, ?_, ?_⟩ <;>
        simp [foldBest, insRows, lastP]
    · cases hb : bench i d with
      | error e =>
        rw [tuneGo_cons_error mp key bench clock T i d rest s e hT hb]
        refine ⟨[(i, d)], [], ?_, ?_, ?_, ?_, ?_, ?_, ?_, ?_, ?_⟩
        · rfl
        · simp
        · simp [foldBest]
        · simp [insRows]
        · simp [lastP]
        · intro p hp
          rw [List.mem_singleton] at hp
          subst hp
          exact Nat.le_of_not_lt hT
        · intro p hp e0 he0
          rw [List.mem_singleton] at hp
          subst hp
          rfl
        · intro p hp b0 hb0
          rw [List.mem_singleton] at hp
          subst hp
          rw [hb] at hb0
          exact Except.noConfusion hb0
        · intro sc hsc
          exact absurd hsc (List.not_mem_nil sc)
      | ok b =>
        rw [tuneGo_cons_ok mp key bench clock T i d rest s b hT hb]
        obtain ⟨t', u', h1, h2, h3, h4, h5, h6, h7, h8, h9⟩ := ih (i + 1)
          { env := ainsert s.env key (toString d),
            benchmark_results := ainsert s.benchmark_results b.avg_latency
              ⟨ainsert s.env key (toString d), b.p90, b.avg_tokens_per_second,
                b.throughput_per_second, b.standard_deviation⟩,
            best_tuned_combination := bestStep mp s.best_tuned_combination
              ⟨b.avg_latency, d, b.p90, b.avg_tokens_per_second,
                b.throughput_per_second, b.standard_deviation⟩,
            attempted := s.attempted ++ [(i, d)],
            succeeded := s.succeeded ++ [⟨i, d, b, ainsert s.env key (toString d)⟩] }
        refine ⟨(i, d) :: t', ⟨i, d, b, ainsert s.env key (toString d)⟩ :: u',
          ?_, ?_, ?_, ?_, ?_, ?_, ?_, ?_, ?_⟩
        · rw [h1]
          simp
        · rw [h2]
          simp
        · rw [h3]
          simp only [List.map_cons]
          rw [foldBest_cons]
          rfl
        · rw [h4]
          rw [show (⟨ainsert s.env key (toString d), b.p90, b.avg_tokens_per_second,
              b.throughput_per_second, b.standard_deviation⟩ : Row) =
              rowOf ⟨i, d, b, ainsert s.env key (toString d)⟩ from rfl]
          rfl
        · cases ht' : t' with
          | nil =>
            rw [ht'] at h5
            simpa [lastP] using h5
          | cons q qs =>
            rw [ht'] at h5
            obtain ⟨p0, hp0⟩ := lastP_isSome q qs
            rw [hp0] at h5
            rw [lastP_cons_cons, hp0]
            simp only at h5
            rw [h5, ainsert_ainsert_same]
        · intro p hp
          rcases List.mem_cons.mp hp with hp | hp
          · subst hp
            exact Nat.le_of_not_lt hT
          · exact h6 p hp
        · intro p hp e0 he0
          rcases List.mem_cons.mp hp with hp | hp
          · subst hp
            rw [hb] at he0
            exact Except.noConfusion he0
          · have hne : t' ≠ [] := by
              intro hnil
              rw [hnil] at hp
              exact absurd hp (List.not_mem_nil p)
            rw [lastP_cons_of_ne_nil (i, d) t' hne]
            exact h7 p hp e0 he0
        · intro p hp b0 hb0
          rcases List.mem_cons.mp hp with hp | hp
          · subst hp
            rw [hb] at hb0
            have hbb : b = b0 := Except.ok.inj hb0
            subst hbb
            exact ⟨ainsert s.env key (toString d), List.mem_cons_self _ _⟩
          · obtain ⟨te, hte⟩ := h8 p hp b0 hb0
            exact ⟨te, List.mem_cons_of_mem _ hte⟩
        · intro sc hsc
          rcases List.mem_cons.mp hsc with hsc | hsc
          · subst hsc
            exact List.mem_cons_self _ _
          · exact List.mem_cons_of_mem _ (h9 sc hsc)

/-! ## Characterising one call of the shared tune body -/

theorem foldBest_cons_ne_none (mp : Combo → Combo → Bool) (c : Combo) (cs : List Combo) :
    foldBest mp none (c :: cs) ≠ none := by
  rw [foldBest_cons]
  show foldBest mp (some c) cs ≠ none
  obtain ⟨q, hq⟩ := foldBest_isSome mp cs c
  rw [hq]
  exact Option.noConfusion

theorem tuneCore_nonlocal (mp : Combo → Combo → Bool) (key : String) (degrees : List Nat)
    (bench : Nat → Nat → Except TuneFailure Bench) (clock : Nat → Nat) (mode : Mode)
    (env0 : List (String × String)) (mx : Nat) (h : mode ≠ Mode.LOCAL_CONTAINER) :
    tuneCore mp key degrees bench clock mode env0 mx = ⟨env0, [], [], []⟩ := by
  rw [tuneCore]
  simp [h]

theorem tuneCore_eq_local (mp : Combo → Combo → Bool) (key : String) (degrees : List Nat)
    (bench : Nat → Nat → Except TuneFailure Bench) (clock : Nat → Nat)
    (env0 : List (String × String)) (mx : Nat) :
    tuneCore mp key degrees bench clock Mode.LOCAL_CONTAINER env0 mx =
      match (tuneGo mp key bench clock (clock 0 + mx) degrees 0
          ⟨env0, [], none, [], []⟩).best_tuned_combination with
      | some best =>
          ⟨ainsert (tuneGo mp key bench clock (clock 0 + mx) degrees 0
              ⟨env0, [], none, [], []⟩).env key (toString best.tensor_parallel_degree),
            (tuneGo mp key bench clock (clock 0 + mx) degrees 0
              ⟨env0, [], none, [], []⟩).benchmark_results,
            (tuneGo mp key bench clock (clock 0 + mx) degrees 0
              ⟨env0, [], none, [], []⟩).attempted,
            (tuneGo mp key bench clock (clock 0 + mx) degrees 0
              ⟨env0, [], none, [], []⟩).succeeded⟩
      | none =>
          ⟨aupdate (tuneGo mp key bench clock (clock 0 + mx) degrees 0
              ⟨env0, [], none, [], []⟩).env env0,
            (tuneGo mp key bench clock (clock 0 + mx) degrees 0
              ⟨env0, [], none, [], []⟩).benchmark_results,
            (tuneGo mp key bench clock (clock 0 + mx) degrees 0
              ⟨env0, [], none, [], []⟩).attempted,
            (tuneGo mp key bench clock (clock 0 + mx) degrees 0
              ⟨env0, [], none, [], []⟩).succeeded⟩ := by
  rfl

/-- Flattened characterisation of a `LOCAL_CONTAINER` run of the shared tune
body, in terms of the ghost attempt log `t` and success log `u`. -/
theorem tuneCore_local_run (mp : Combo → Combo → Bool) (key : String) (degrees : List Nat)
    (bench : Nat → Nat → Except TuneFailure Bench) (clock : Nat → Nat)
    (env0 : List (String × String)) (mx : Nat) :
    ∃ t u,
      (tuneCore mp key degrees bench clock Mode.LOCAL_CONTAINER env0 mx).attempted = t ∧
      (tuneCore mp key degrees bench clock Mode.LOCAL_CONTAINER env0 mx).succeeded = u ∧
      (tuneCore mp key degrees bench clock Mode.LOCAL_CONTAINER env0 mx).benchmark_results =
        insRows [] u ∧
      (u = [] →
        (tuneCore mp key degrees bench clock Mode.LOCAL_CONTAINER env0 mx).env =
          aupdate (match lastP t with
            | none => env0
            | some p => ainsert env0 key (toString p.2)) env0) ∧
      (∀ bc, foldBest mp none (u.map comboOf) = some bc →
        (tuneCore mp key degrees bench clock Mode.LOCAL_CONTAINER env0 mx).env =
          ainsert (match lastP t with
            | none => env0
            | some p => ainsert env0 key (toString p.2)) key
            (toString bc.tensor_parallel_degree)) ∧
      (foldBest mp none (u.map comboOf) = none ↔ u = []) ∧
      (∀ p ∈ t, clock (p.1 + 1) ≤ clock 0 + mx) ∧
      (∀ p ∈ t, ∀ e, bench p.1 p.2 = Except.error e → lastP t = some p) ∧
      (∀ p ∈ t, ∀ b, bench p.1 p.2 = Except.ok b →
        ∃ te, SuccCand.mk p.1 p.2 b te ∈ u) ∧
      (∀ sc ∈ u, (sc.idx, sc.degree) ∈ t) := by
  obtain ⟨t, u, h1, h2, h3, h4, h5, h6, h7, h8, h9⟩ :=
    tuneGo_spec mp key bench clock (clock 0 + mx) degrees 0 ⟨env0, [], none, [], []⟩
  dsimp only at h1 h2 h3 h4 h5
  have hiff : foldBest mp none (u.map comboOf) = none ↔ u = [] := by
    constructor
    · intro hF
      cases hu : u with
      | nil => rfl
      | cons sc rest =>
        exfalso
        rw [hu, List.map_cons] at hF
        exact foldBest_cons_ne_none mp (comboOf sc) (rest.map comboOf) hF
    · intro hu
      rw [hu]
      rfl
  refine ⟨t, u, ?_, ?_, ?_, ?_, ?_, hiff, h6, h7, h8, h9⟩ <;>
    rw [tuneCore_eq_local] <;>
    cases hbest : (tuneGo mp key bench clock (clock 0 + mx) degrees 0
      ⟨env0, [], none, [], []⟩).best_tuned_combination
  · dsimp only [hbest]
    exact h1
  · dsimp only [hbest]
    exact h1
  · dsimp only [hbest]
    exact h2
  · dsimp only [hbest]
    exact h2
  · dsimp only [hbest]
    exact h4
  · dsimp only [hbest]
    exact h4
  · intro hu
    dsimp only [hbest]
    rw [h5]
  · intro hu
    exfalso
    have hF := h3.symm.trans hbest
    rw [hu] at hF
    exact Option.noConfusion hF
  · intro bc hbc
    exfalso
    have hF := h3.symm.trans hbest
    rw [hbc] at hF
    exact Option.noConfusion hF
  · rename_i bc0
    intro bc hbc
    have hF := h3.symm.trans hbest
    rw [hbc] at hF
    have hbc0 : bc = bc0 := Option.some.inj hF
    subst hbc0
    dsimp only [hbest]
    rw [h5]

theorem alookup_insRows_nil (u : List SuccCand) (latency : Nat) :
    alookup (insRows [] u) latency = lastRow u latency := by
  rw [alookup_insRows]
  cases h : lastRow u latency <;> simp [alookup]

/-- In any non-local mode a tune call leaves everything untouched and
attempts nothing. -/
theorem tuneCore_error_stops (mp : Combo → Combo → Bool) (key : String) (degrees : List Nat)
    (bench : Nat → Nat → Except TuneFailure Bench) (clock : Nat → Nat) (mode : Mode)
    (env0 : List (String × String)) (mx : Nat) (p : Nat × Nat) (e : TuneFailure)
    (hp : p ∈ (tuneCore mp key degrees bench clock mode env0 mx).attempted)
    (he : bench p.1 p.2 = Except.error e) :
    lastP (tuneCore mp key degrees bench clock mode env0 mx).attempted = some p := by
  cases mode with
  | SAGEMAKER_ENDPOINT =>
    rw [tuneCore_nonlocal mp key degrees bench clock Mode.SAGEMAKER_ENDPOINT env0 mx
      (by intro h; exact Mode.noConfusion h)] at hp
    exact absurd hp (List.not_mem_nil p)
  | LOCAL_CONTAINER =>
    obtain ⟨t, u, A1, A2, A3, A4, A5, A6, A7, A8, A9, A10⟩ :=
      tuneCore_local_run mp key degrees bench clock env0 mx
    rw [A1] at hp ⊢
    exact A8 p hp e he

theorem tuneCore_deadline (mp : Combo → Combo → Bool) (key : String) (degrees : List Nat)
    (bench : Nat → Nat → Except TuneFailure Bench) (clock : Nat → Nat) (mode : Mode)
    (env0 : List (String × String)) (mx : Nat) (p : Nat × Nat)
    (hp : p ∈ (tuneCore mp key degrees bench clock mode env0 mx).attempted) :
    clock (p.1 + 1) ≤ clock 0 + mx ∧
    (∀ b, bench p.1 p.2 = Except.ok b →
      ∃ te, SuccCand.mk p.1 p.2 b te ∈
        (tuneCore mp key degrees bench clock mode env0 mx).succeeded) := by
  cases mode with
  | SAGEMAKER_ENDPOINT =>
    rw [tuneCore_nonlocal mp key degrees bench clock Mode.SAGEMAKER_ENDPOINT env0 mx
      (by intro h; exact Mode.noConfusion h)] at hp
    exact absurd hp (List.not_mem_nil p)
  | LOCAL_CONTAINER =>
    obtain ⟨t, u, A1, A2, A3, A4, A5, A6, A7, A8, A9, A10⟩ :=
      tuneCore_local_run mp key degrees bench clock env0 mx
    rw [A1] at hp
    refine ⟨A7 p hp, ?_⟩
    intro b hb
    rw [A2]
    exact A9 p hp b hb

theorem tuneCore_success (mp : Combo → Combo → Bool) (key : String) (degrees : List Nat)
    (bench : Nat → Nat → Except TuneFailure Bench) (clock : Nat → Nat) (mode : Mode)
    (env0 : List (String × String)) (mx : Nat) (sc : SuccCand) (rest : List SuccCand)
    (hs : (tuneCore mp key degrees bench clock mode env0 mx).succeeded = sc :: rest) :
    ∃ bc, foldBest mp none ((sc :: rest).map comboOf) = some bc ∧
      alookup (tuneCore mp key degrees bench clock mode env0 mx).env key =
        some (toString bc.tensor_parallel_degree) ∧
      bc ∈ (sc :: rest).map comboOf ∧
      (∀ s0 ∈ sc :: rest, (s0.idx, s0.degree) ∈
        (tuneCore mp key degrees bench clock mode env0 mx).attempted) := by
  cases mode with
  | SAGEMAKER_ENDPOINT =>
    rw [tuneCore_nonlocal mp key degrees bench clock Mode.SAGEMAKER_ENDPOINT env0 mx
      (by intro h; exact Mode.noConfusion h)] at hs
    exact absurd hs (List.noConfusion)
  | LOCAL_CONTAINER =>
    obtain ⟨t, u, A1, A2, A3, A4, A5, A6, A7, A8, A9, A10⟩ :=
      tuneCore_local_run mp key degrees bench clock env0 mx
    have hu : u = sc :: rest := A2.symm.trans hs
    cases hF : foldBest mp none ((sc :: rest).map comboOf) with
    | none =>
      exfalso
      rw [List.map_cons] at hF
      exact foldBest_cons_ne_none mp (comboOf sc) (rest.map comboOf) hF
    | some bc =>
      refine ⟨bc, rfl, ?_, ?_, ?_⟩
      · have henv := A5 bc (by rw [hu]; exact hF)
        rw [henv, alookup_ainsert_self]
      · rcases foldBest_mem mp ((sc :: rest).map comboOf) none bc hF with habs | hmem
        · exact absurd habs (Option.noConfusion)
        · exact hmem
      · intro s0 hs0
        rw [A1]
        exact A10 s0 (by rw [hu]; exact hs0)

theorem tuneCore_all_fail (mp : Combo → Combo → Bool) (key : String) (degrees : List Nat)
    (bench : Nat → Nat → Except TuneFailure Bench) (clock : Nat → Nat) (mode : Mode)
    (env0 : List (String × String)) (mx : Nat)
    (hnd : akeysNodup env0)
    (hfail : (tuneCore mp key degrees bench clock mode env0 mx).succeeded = []) :
    (∀ k, k ≠ key →
      alookup (tuneCore mp key degrees bench clock mode env0 mx).env k = alookup env0 k) ∧
    (∀ v, alookup env0 key = some v →
      alookup (tuneCore mp key degrees bench clock mode env0 mx).env key = some v) ∧
    ((tuneCore mp key degrees bench clock mode env0 mx).attempted = [] →
      ∀ k, alookup (tuneCore mp key degrees bench clock mode env0 mx).env k = alookup env0 k) ∧
    (∀ p, lastP (tuneCore mp key degrees bench clock mode env0 mx).attempted = some p →
      alookup env0 key = none →
      alookup (tuneCore mp key degrees bench clock mode env0 mx).env key =
        some (toString p.2)) := by
  cases mode with
  | SAGEMAKER_ENDPOINT =>
    rw [tuneCore_nonlocal mp key degrees bench clock Mode.SAGEMAKER_ENDPOINT env0 mx
      (by intro h; exact Mode.noConfusion h)]
    refine ⟨fun k _ => rfl, fun v hv => hv, fun _ k => rfl, fun p hl _ => ?_⟩
    exact absurd hl (by intro h; exact Option.noConfusion h)
  | LOCAL_CONTAINER =>
    obtain ⟨t, u, A1, A2, A3, A4, A5, A6, A7, A8, A9, A10⟩ :=
      tuneCore_local_run mp key degrees bench clock env0 mx
    have hu : u = [] := A2.symm.trans hfail
    have henv := A4 hu
    refine ⟨?_, ?_, ?_, ?_⟩
    · intro k hk
      rw [henv, alookup_aupdate _ env0 k hnd]
      cases hek : alookup env0 k with
      | some v => rfl
      | none =>
        cases hlp : lastP t with
        | none => exact hek
        | some p =>
          rw [alookup_ainsert_ne env0 key k (toString p.2) (fun h => hk h.symm)]
          exact hek
    · intro v hv
      rw [henv, alookup_aupdate _ env0 key hnd, hv]
    · intro hatt k
      have ht : t = [] := A1.symm.trans hatt
      rw [henv, ht]
      rw [alookup_aupdate _ env0 k hnd]
      cases hek : alookup env0 k with
      | some v => rfl
      | none => exact hek
    · intro p hl hk0
      rw [A1] at hl
      rw [henv, hl, alookup_aupdate _ env0 key hnd, hk0]
      exact alookup_ainsert_self env0 key (toString p.2)

theorem tuneCore_zero_budget (mp : Combo → Combo → Bool) (key : String) (degrees : List Nat)
    (bench : Nat → Nat → Except TuneFailure Bench) (clock : Nat → Nat) (mode : Mode)
    (env0 : List (String × String))
    (hnd : akeysNodup env0) (hck : clock 0 < clock 1) :
    (tuneCore mp key degrees bench clock mode env0 0).attempted = [] ∧
    (∀ k, alookup (tuneCore mp key degrees bench clock mode env0 0).env k =
      alookup env0 k) := by
  cases mode with
  | SAGEMAKER_ENDPOINT =>
    rw [tuneCore_nonlocal mp key degrees bench clock Mode.SAGEMAKER_ENDPOINT env0 0
      (by intro h; exact Mode.noConfusion h)]
    exact ⟨rfl, fun k => rfl⟩
  | LOCAL_CONTAINER =>
    have hG : tuneGo mp key bench clock (clock 0 + 0) degrees 0 ⟨env0, [], none, [], []⟩ =
        ⟨env0, [], none, [], []⟩ := by
      cases degrees with
      | nil => exact tuneGo_nil mp key bench clock (clock 0 + 0) 0 _
      | cons d rest =>
        exact tuneGo_cons_timeout mp key bench clock (clock 0 + 0) 0 d rest _
          (by simpa using hck)
    rw [tuneCore_eq_local, hG]
    dsimp only
    refine ⟨rfl, ?_⟩
    intro k
    rw [alookup_aupdate env0 env0 k hnd]
    cases hek : alookup env0 k with
    | some v => rfl
    | none => rfl

theorem tuneCore_table_overwrite (mp : Combo → Combo → Bool) (key : String)
    (degrees : List Nat) (bench : Nat → Nat → Except TuneFailure Bench) (clock : Nat → Nat)
    (mode : Mode) (env0 : List (String × String)) (mx : Nat)
    (u1 u2 u3 : List SuccCand) (sc1 sc2 : SuccCand)
    (hdec : (tuneCore mp key degrees bench clock mode env0 mx).succeeded =
      u1 ++ sc1 :: (u2 ++ sc2 :: u3))
    (hlat : sc1.bench.avg_latency = sc2.bench.avg_latency) :
    alookup (tuneCore mp key degrees bench clock mode env0 mx).benchmark_results
        sc1.bench.avg_latency =
      lastRow (sc2 :: u3) sc1.bench.avg_latency ∧
    (tuneCore mp key degrees bench clock mode env0 mx).benchmark_results.length <
      (tuneCore mp key degrees bench clock mode env0 mx).succeeded.length := by
  cases mode with
  | SAGEMAKER_ENDPOINT =>
    rw [tuneCore_nonlocal mp key degrees bench clock Mode.SAGEMAKER_ENDPOINT env0 mx
      (by intro h; exact Mode.noConfusion h)] at hdec
    exfalso
    cases u1 <;> exact List.noConfusion hdec
  | LOCAL_CONTAINER =>
    obtain ⟨t, u, A1, A2, A3, A4, A5, A6, A7, A8, A9, A10⟩ :=
      tuneCore_local_run mp key degrees bench clock env0 mx
    have hu : u = u1 ++ sc1 :: (u2 ++ sc2 :: u3) := A2.symm.trans hdec
    obtain ⟨r0, hr0⟩ := lastRow_cons_isSome sc2 u3 sc1.bench.avg_latency hlat.symm
    constructor
    · rw [A3, hu, alookup_insRows_nil]
      rw [lastRow_append u1 (sc1 :: (u2 ++ sc2 :: u3)) sc1.bench.avg_latency]
      rw [lastRow]
      rw [lastRow_append u2 (sc2 :: u3) sc1.bench.avg_latency, hr0]
    · rw [A3, A2, hu]
      rw [insRows_append, insRows_cons, insRows_append, insRows_cons]
      have hc1 : acontains
          (ainsert (insRows [] u1) sc1.bench.avg_latency (rowOf sc1))
          sc1.bench.avg_latency = true :=
        acontains_ainsert_self (insRows [] u1) sc1.bench.avg_latency (rowOf sc1)
      have hc2 : acontains
          (insRows (ainsert (insRows [] u1) sc1.bench.avg_latency (rowOf sc1)) u2)
          sc1.bench.avg_latency = true :=
        acontains_insRows_mono u2 _ sc1.bench.avg_latency hc1
      have hlen2 : (ainsert
          (insRows (ainsert (insRows [] u1) sc1.bench.avg_latency (rowOf sc1)) u2)
          sc2.bench.avg_latency (rowOf sc2)).length =
          (insRows (ainsert (insRows [] u1) sc1.bench.avg_latency (rowOf sc1)) u2).length := by
        rw [← hlat]
        exact length_ainsert_of_contains _ sc1.bench.avg_latency (rowOf sc2) hc2
      have l0 : (insRows ([] : List (Nat × Row)) u1).length ≤ u1.length := by
        have := length_insRows_le u1 []
        simpa using this
      have l1 : (ainsert (insRows [] u1) sc1.bench.avg_latency (rowOf sc1)).length ≤
          u1.length + 1 := by
        have := length_ainsert_le (insRows [] u1) sc1.bench.avg_latency (rowOf sc1)
        omega
      have l2 : (insRows (ainsert (insRows [] u1) sc1.bench.avg_latency (rowOf sc1))
          u2).length ≤ u1.length + 1 + u2.length := by
        have := length_insRows_le u2 (ainsert (insRows [] u1) sc1.bench.avg_latency (rowOf sc1))
        omega
      have l3 : (insRows (ainsert
          (insRows (ainsert (insRows [] u1) sc1.bench.avg_latency (rowOf sc1)) u2)
          sc2.bench.avg_latency (rowOf sc2)) u3).length ≤
          u1.length + 1 + u2.length + u3.length := by
        have := length_insRows_le u3 (ainsert
          (insRows (ainsert (insRows [] u1) sc1.bench.avg_latency (rowOf sc1)) u2)
          sc2.bench.avg_latency (rowOf sc2))
        omega
      have hr : (u1 ++ sc1 :: (u2 ++ sc2 :: u3)).length =
          u1.length + 1 + u2.length + 1 + u3.length := by
        simp [List.length_append, List.length_cons]
        omega
      omega

/-! ## Claim theorems -/

/-- C6: when the builder's mode is not `LOCAL_CONTAINER`, both
`tune_for_djl_jumpstart` and `tune_for_tgi_jumpstart` return the model
immediately with its environment map unchanged: no snapshot is taken, no
candidate is deployed (empty attempt log) and no field is mutated (the env
is returned as-is and the results table is empty). -/
theorem claim_C6 (mp : Combo → Combo → Bool) (degrees : List Nat)
    (bench : Nat → Nat → Except TuneFailure Bench) (clock : Nat → Nat) (mode : Mode)
    (env0 : List (String × String)) (mx : Nat) (hm : mode ≠ Mode.LOCAL_CONTAINER) :
    (tune_for_djl_jumpstart mp degrees bench clock mode env0 mx).env = env0 ∧
    (tune_for_djl_jumpstart mp degrees bench clock mode env0 mx).benchmark_results = [] ∧
    (tune_for_djl_jumpstart mp degrees bench clock mode env0 mx).attempted = [] ∧
    (tune_for_djl_jumpstart mp degrees bench clock mode env0 mx).succeeded = [] ∧
    (tune_for_tgi_jumpstart mp degrees bench clock mode env0 mx).env = env0 ∧
    (tune_for_tgi_jumpstart mp degrees bench clock mode env0 mx).benchmark_results = [] ∧
    (tune_for_tgi_jumpstart mp degrees bench clock mode env0 mx).attempted = [] ∧
    (tune_for_tgi_jumpstart mp degrees bench clock mode env0 mx).succeeded = [] := by
  unfold tune_for_djl_jumpstart tune_for_tgi_jumpstart
  rw [tuneCore_nonlocal mp "OPTION_TENSOR_PARALLEL_DEGREE" degrees bench clock mode env0 mx hm,
    tuneCore_nonlocal mp "SM_NUM_GPUS" degrees bench clock mode env0 mx hm]
  exact ⟨rfl, rfl, rfl, rfl, rfl, rfl, rfl, rfl⟩

/-- Witness for C6 at a concrete non-local run. -/
theorem claim_C6_witness :
    (Mode.SAGEMAKER_ENDPOINT ≠ Mode.LOCAL_CONTAINER) ∧
    ((tune_for_djl_jumpstart (fun prev c => decide (c.avg_latency < prev.avg_latency)) [1, 2]
        (fun _ _ => Except.ok ⟨50, 60, 7, 8, 9⟩) (fun n => n)
        Mode.SAGEMAKER_ENDPOINT [("HF_MODEL_ID", "m")] 1800).env = [("HF_MODEL_ID", "m")] ∧
      (tune_for_djl_jumpstart (fun prev c => decide (c.avg_latency < prev.avg_latency)) [1, 2]
        (fun _ _ => Except.ok ⟨50, 60, 7, 8, 9⟩) (fun n => n)
        Mode.SAGEMAKER_ENDPOINT [("HF_MODEL_ID", "m")] 1800).benchmark_results = [] ∧
      (tune_for_djl_jumpstart (fun prev c => decide (c.avg_latency < prev.avg_latency)) [1, 2]
        (fun _ _ => Except.ok ⟨50, 60, 7, 8, 9⟩) (fun n => n)
        Mode.SAGEMAKER_ENDPOINT [("HF_MODEL_ID", "m")] 1800).attempted = [] ∧
      (tune_for_djl_jumpstart (fun prev c => decide (c.avg_latency < prev.avg_latency)) [1, 2]
        (fun _ _ => Except.ok ⟨50, 60, 7, 8, 9⟩) (fun n => n)
        Mode.SAGEMAKER_ENDPOINT [("HF_MODEL_ID", "m")] 1800).succeeded = [] ∧
      (tune_for_tgi_jumpstart (fun prev c => decide (c.avg_latency < prev.avg_latency)) [1, 2]
        (fun _ _ => Except.ok ⟨50, 60, 7, 8, 9⟩) (fun n => n)
        Mode.SAGEMAKER_ENDPOINT [("HF_MODEL_ID", "m")] 1800).env = [("HF_MODEL_ID", "m")] ∧
      (tune_for_tgi_jumpstart (fun prev c => decide (c.avg_latency < prev.avg_latency)) [1, 2]
        (fun _ _ => Except.ok ⟨50, 60, 7, 8, 9⟩) (fun n => n)
        Mode.SAGEMAKER_ENDPOINT [("HF_MODEL_ID", "m")] 1800).benchmark_results = [] ∧
      (tune_for_tgi_jumpstart (fun prev c => decide (c.avg_latency < prev.avg_latency)) [1, 2]
        (fun _ _ => Except.ok ⟨50, 60, 7, 8, 9⟩) (fun n => n)
        Mode.SAGEMAKER_ENDPOINT [("HF_MODEL_ID", "m")] 1800).attempted = [] ∧
      (tune_for_tgi_jumpstart (fun prev c => decide (c.avg_latency < prev.avg_latency)) [1, 2]
        (fun _ _ => Except.ok ⟨50, 60, 7, 8, 9⟩) (fun n => n)
        Mode.SAGEMAKER_ENDPOINT [("HF_MODEL_ID", "m")] 1800).succeeded = []) :=
  ⟨by decide,
    claim_C6 (fun prev c => decide (c.avg_latency < prev.avg_latency)) [1, 2]
      (fun _ _ => Except.ok ⟨50, 60, 7, 8, 9⟩) (fun n => n)
      Mode.SAGEMAKER_ENDPOINT [("HF_MODEL_ID", "m")] 1800 (by decide)⟩

/-- C2: in both tuning loops, every failure kind raised by a candidate's
deploy-and-benchmark step (the five named local exceptions and the
catch-all, modelled as the `TuneFailure` value carried by `Except.error`) is
caught at the per-candidate boundary and terminates the sweep: the failing
candidate is the last entry of the attempt log, so no later candidate is
attempted.  The tune body is a total function into `TuneResult`, so no such
failure propagates to the caller, who always receives a model value. -/
theorem claim_C2 (mp : Combo → Combo → Bool) (degrees : List Nat)
    (bench : Nat → Nat → Except TuneFailure Bench) (clock : Nat → Nat) (mode : Mode)
    (env0 : List (String × String)) (mx : Nat) (p q : Nat × Nat) (e f : TuneFailure)
    (hp : p ∈ (tune_for_djl_jumpstart mp degrees bench clock mode env0 mx).attempted)
    (he : bench p.1 p.2 = Except.error e)
    (hq : q ∈ (tune_for_tgi_jumpstart mp degrees bench clock mode env0 mx).attempted)
    (hf : bench q.1 q.2 = Except.error f) :
    lastP (tune_for_djl_jumpstart mp degrees bench clock mode env0 mx).attempted = some p ∧
    lastP (tune_for_tgi_jumpstart mp degrees bench clock mode env0 mx).attempted = some q :=
  ⟨tuneCore_error_stops mp "OPTION_TENSOR_PARALLEL_DEGREE" degrees bench clock mode env0 mx
      p e hp he,
    tuneCore_error_stops mp "SM_NUM_GPUS" degrees bench clock mode env0 mx q f hq hf⟩

/-- Witness for C2: a concrete run whose first candidate raises
`SkipTuningComboException` is the last attempt of both loops. -/
theorem claim_C2_witness :
    ((0, 3) ∈ (tune_for_djl_jumpstart (fun prev c => decide (c.avg_latency < prev.avg_latency))
        [3, 6] (fun _ _ => Except.error TuneFailure.skipTuningCombo) (fun n => n)
        Mode.LOCAL_CONTAINER [] 1800).attempted) ∧
    ((0, 3) ∈ (tune_for_tgi_jumpstart (fun prev c => decide (c.avg_latency < prev.avg_latency))
        [3, 6] (fun _ _ => Except.error TuneFailure.skipTuningCombo) (fun n => n)
        Mode.LOCAL_CONTAINER [] 1800).attempted) ∧
    (lastP (tune_for_djl_jumpstart (fun prev c => decide (c.avg_latency < prev.avg_latency))
        [3, 6] (fun _ _ => Except.error TuneFailure.skipTuningCombo) (fun n => n)
        Mode.LOCAL_CONTAINER [] 1800).attempted = some (0, 3) ∧
      lastP (tune_for_tgi_jumpstart (fun prev c => decide (c.avg_latency < prev.avg_latency))
        [3, 6] (fun _ _ => Except.error TuneFailure.skipTuningCombo) (fun n => n)
        Mode.LOCAL_CONTAINER [] 1800).attempted = some (0, 3)) :=
  ⟨by decide, by decide,
    claim_C2 (fun prev c => decide (c.avg_latency < prev.avg_latency)) [3, 6]
      (fun _ _ => Except.error TuneFailure.skipTuningCombo) (fun n => n)
      Mode.LOCAL_CONTAINER [] 1800 (0, 3) (0, 3)
      TuneFailure.skipTuningCombo TuneFailure.skipTuningCombo
      (by decide) rfl (by decide) rfl⟩

/-- C4: in both tuning loops, a candidate attempt only begins if the clock
reading taken at the top of its iteration (reading `i + 1`, before the
deploy call) does not exceed the deadline `clock 0 + max_tuning_duration`;
and an attempt that begins is never interrupted mid-flight: if its
deploy-and-benchmark step succeeds, its full result is recorded in the
success log. -/
theorem claim_C4 (mp : Combo → Combo → Bool) (degrees : List Nat)
    (bench : Nat → Nat → Except TuneFailure Bench) (clock : Nat → Nat) (mode : Mode)
    (env0 : List (String × String)) (mx : Nat) (p q : Nat × Nat)
    (hp : p ∈ (tune_for_djl_jumpstart mp degrees bench clock mode env0 mx).attempted)
    (hq : q ∈ (tune_for_tgi_jumpstart mp degrees bench clock mode env0 mx).attempted) :
    (clock (p.1 + 1) ≤ clock 0 + mx ∧
      (∀ b, bench p.1 p.2 = Except.ok b →
        ∃ te, SuccCand.mk p.1 p.2 b te ∈
          (tune_for_djl_jumpstart mp degrees bench clock mode env0 mx).succeeded)) ∧
    (clock (q.1 + 1) ≤ clock 0 + mx ∧
      (∀ b, bench q.1 q.2 = Except.ok b →
        ∃ te, SuccCand.mk q.1 q.2 b te ∈
          (tune_for_tgi_jumpstart mp degrees bench clock mode env0 mx).succeeded)) :=
  ⟨tuneCore_deadline mp "OPTION_TENSOR_PARALLEL_DEGREE" degrees bench clock mode env0 mx p hp,
    tuneCore_deadline mp "SM_NUM_GPUS" degrees bench clock mode env0 mx q hq⟩

/-- Witness for C4 at a concrete run with one successful candidate. -/
theorem claim_C4_witness :
    ((0, 2) ∈ (tune_for_djl_jumpstart (fun prev c => decide (c.avg_latency < prev.avg_latency))
        [2] (fun _ _ => Except.ok ⟨50, 60, 7, 8, 9⟩) (fun n => n)
        Mode.LOCAL_CONTAINER [] 1800).attempted) ∧
    ((0, 2) ∈ (tune_for_tgi_jumpstart (fun prev c => decide (c.avg_latency < prev.avg_latency))
        [2] (fun _ _ => Except.ok ⟨50, 60, 7, 8, 9⟩) (fun n => n)
        Mode.LOCAL_CONTAINER [] 1800).attempted) ∧
    ((fun n => n) (0 + 1) ≤ (fun n => n) 0 + 1800 ∧
      (∀ b, (fun _ _ => Except.ok ⟨50, 60, 7, 8, 9⟩ : Nat → Nat → Except TuneFailure Bench)
          (0, 2).1 (0, 2).2 = Except.ok b →
        ∃ te, SuccCand.mk (0, 2).1 (0, 2).2 b te ∈
          (tune_for_djl_jumpstart (fun prev c => decide (c.avg_latency < prev.avg_latency))
            [2] (fun _ _ => Except.ok ⟨50, 60, 7, 8, 9⟩) (fun n => n)
            Mode.LOCAL_CONTAINER [] 1800).succeeded)) ∧
    ((fun n => n) (0 + 1) ≤ (fun n => n) 0 + 1800 ∧
      (∀ b, (fun _ _ => Except.ok ⟨50, 60, 7, 8, 9⟩ : Nat → Nat → Except TuneFailure Bench)
          (0, 2).1 (0, 2).2 = Except.ok b →
        ∃ te, SuccCand.mk (0, 2).1 (0, 2).2 b te ∈
          (tune_for_tgi_jumpstart (fun prev c => decide (c.avg_latency < prev.avg_latency))
            [2] (fun _ _ => Except.ok ⟨50, 60, 7, 8, 9⟩) (fun n => n)
            Mode.LOCAL_CONTAINER [] 1800).succeeded)) := by
  have h := claim_C4 (fun prev c => decide (c.avg_latency < prev.avg_latency)) [2]
    (fun _ _ => Except.ok ⟨50, 60, 7, 8, 9⟩) (fun n => n)
    Mode.LOCAL_CONTAINER [] 1800 (0, 2) (0, 2) (by decide) (by decide)
  exact ⟨by decide, by decide, h.1, h.2⟩

/-- Counterexample to C1 as stated: a `LOCAL_CONTAINER` run of
`tune_for_djl_jumpstart` whose only candidate fails (empty success log)
returns a model whose environment does NOT equal the pre-loop snapshot: the
snapshot was the empty dict, but the fallback `env.update(initial)` cannot
delete the `OPTION_TENSOR_PARALLEL_DEGREE` entry written for the failed
candidate, so the returned env carries that extra key. -/
theorem claim_C1_counterexample :
    ((tune_for_djl_jumpstart (fun prev c => decide (c.avg_latency < prev.avg_latency)) [1]
        (fun _ _ => Except.error TuneFailure.localModelLoad) (fun n => n)
        Mode.LOCAL_CONTAINER [] 1800).succeeded = []) ∧
    alookup (tune_for_djl_jumpstart (fun prev c => decide (c.avg_latency < prev.avg_latency)) [1]
        (fun _ _ => Except.error TuneFailure.localModelLoad) (fun n => n)
        Mode.LOCAL_CONTAINER [] 1800).env "OPTION_TENSOR_PARALLEL_DEGREE" = some "1" ∧
    alookup ([] : List (String × String)) "OPTION_TENSOR_PARALLEL_DEGREE" = none := by
  exact ⟨by decide, by decide, rfl⟩

/-- C1 (amended): in an all-fail `LOCAL_CONTAINER` run of either tune loop
(no candidate successfully benchmarked), the returned environment agrees
with the pre-loop snapshot on every key other than the swept key; the swept
key itself is restored to its snapshot value whenever the snapshot contains
it; if no candidate was even attempted the env equals the snapshot on every
key; and the only possible extra key is the swept key, which then holds the
string of the last attempted candidate's degree (the snapshot lacking it).
The snapshot is assumed well-formed (no duplicate keys), as every Python
dict is. -/
theorem claim_C1 (mp : Combo → Combo → Bool) (degrees : List Nat)
    (bench : Nat → Nat → Except TuneFailure Bench) (clock : Nat → Nat) (mode : Mode)
    (env0 : List (String × String)) (mx : Nat)
    (hnd : akeysNodup env0)
    (hfd : (tune_for_djl_jumpstart mp degrees bench clock mode env0 mx).succeeded = [])
    (hft : (tune_for_tgi_jumpstart mp degrees bench clock mode env0 mx).succeeded = []) :
    ((∀ k, k ≠ "OPTION_TENSOR_PARALLEL_DEGREE" →
        alookup (tune_for_djl_jumpstart mp degrees bench clock mode env0 mx).env k =
          alookup env0 k) ∧
      (∀ v, alookup env0 "OPTION_TENSOR_PARALLEL_DEGREE" = some v →
        alookup (tune_for_djl_jumpstart mp degrees bench clock mode env0 mx).env
          "OPTION_TENSOR_PARALLEL_DEGREE" = some v) ∧
      ((tune_for_djl_jumpstart mp degrees bench clock mode env0 mx).attempted = [] →
        ∀ k, alookup (tune_for_djl_jumpstart mp degrees bench clock mode env0 mx).env k =
          alookup env0 k) ∧
      (∀ p, lastP (tune_for_djl_jumpstart mp degrees bench clock mode env0 mx).attempted =
          some p →
        alookup env0 "OPTION_TENSOR_PARALLEL_DEGREE" = none →
        alookup (tune_for_djl_jumpstart mp degrees bench clock mode env0 mx).env
          "OPTION_TENSOR_PARALLEL_DEGREE" = some (toString p.2))) ∧
    ((∀ k, k ≠ "SM_NUM_GPUS" →
        alookup (tune_for_tgi_jumpstart mp degrees bench clock mode env0 mx).env k =
          alookup env0 k) ∧
      (∀ v, alookup env0 "SM_NUM_GPUS" = some v →
        alookup (tune_for_tgi_jumpstart mp degrees bench clock mode env0 mx).env
          "SM_NUM_GPUS" = some v) ∧
      ((tune_for_tgi_jumpstart mp degrees bench clock mode env0 mx).attempted = [] →
        ∀ k, alookup (tune_for_tgi_jumpstart mp degrees bench clock mode env0 mx).env k =
          alookup env0 k) ∧
      (∀ p, lastP (tune_for_tgi_jumpstart mp degrees bench clock mode env0 mx).attempted =
          some p →
        alookup env0 "SM_NUM_GPUS" = none →
        alookup (tune_for_tgi_jumpstart mp degrees bench clock mode env0 mx).env
          "SM_NUM_GPUS" = some (toString p.2))) :=
  ⟨tuneCore_all_fail mp "OPTION_TENSOR_PARALLEL_DEGREE" degrees bench clock mode env0 mx
      hnd hfd,
    tuneCore_all_fail mp "SM_NUM_GPUS" degrees bench clock mode env0 mx hnd hft⟩

/-- Witness for the amended C1 at a concrete all-fail run: the unrelated
snapshot key keeps its value in both loops. -/
theorem claim_C1_witness :
    akeysNodup [("HF_MODEL_ID", "m")] ∧
    ((tune_for_djl_jumpstart (fun prev c => decide (c.avg_latency < prev.avg_latency)) [1]
        (fun _ _ => Except.error TuneFailure.localModelOutOfMemory) (fun n => n)
        Mode.LOCAL_CONTAINER [("HF_MODEL_ID", "m")] 1800).succeeded = []) ∧
    ((tune_for_tgi_jumpstart (fun prev c => decide (c.avg_latency < prev.avg_latency)) [1]
        (fun _ _ => Except.error TuneFailure.localModelOutOfMemory) (fun n => n)
        Mode.LOCAL_CONTAINER [("HF_MODEL_ID", "m")] 1800).succeeded = []) ∧
    alookup (tune_for_djl_jumpstart (fun prev c => decide (c.avg_latency < prev.avg_latency)) [1]
        (fun _ _ => Except.error TuneFailure.localModelOutOfMemory) (fun n => n)
        Mode.LOCAL_CONTAINER [("HF_MODEL_ID", "m")] 1800).env "HF_MODEL_ID" =
      alookup [("HF_MODEL_ID", "m")] "HF_MODEL_ID" ∧
    alookup (tune_for_tgi_jumpstart (fun prev c => decide (c.avg_latency < prev.avg_latency)) [1]
        (fun _ _ => Except.error TuneFailure.localModelOutOfMemory) (fun n => n)
        Mode.LOCAL_CONTAINER [("HF_MODEL_ID", "m")] 1800).env "HF_MODEL_ID" =
      alookup [("HF_MODEL_ID", "m")] "HF_MODEL_ID" :=
  ⟨by unfold akeysNodup; decide, by decide, by decide,
    (claim_C1 (fun prev c => decide (c.avg_latency < prev.avg_latency)) [1]
      (fun _ _ => Except.error TuneFailure.localModelOutOfMemory) (fun n => n)
      Mode.LOCAL_CONTAINER [("HF_MODEL_ID", "m")] 1800
      (by unfold akeysNodup; decide) (by decide) (by decide)).1.1 "HF_MODEL_ID" (by decide),
    (claim_C1 (fun prev c => decide (c.avg_latency < prev.avg_latency)) [1]
      (fun _ _ => Except.error TuneFailure.localModelOutOfMemory) (fun n => n)
      Mode.LOCAL_CONTAINER [("HF_MODEL_ID", "m")] 1800
      (by unfold akeysNodup; decide) (by decide) (by decide)).2.1 "HF_MODEL_ID" (by decide)⟩

/-- C5: with `max_tuning_duration = 0` both tuning loops perform zero
candidate attempts and return the model with its environment equal, key for
key, to the untouched pre-loop snapshot.  The wall clock is assumed to
advance strictly between the deadline computation (reading 0) and the first
loop check (reading 1), which is what makes `datetime.now() > timeout` fire
immediately; the snapshot is assumed to have no duplicate keys. -/
theorem claim_C5 (mp : Combo → Combo → Bool) (degrees : List Nat)
    (bench : Nat → Nat → Except TuneFailure Bench) (clock : Nat → Nat) (mode : Mode)
    (env0 : List (String × String))
    (hnd : akeysNodup env0) (hck : clock 0 < clock 1) :
    (tune_for_djl_jumpstart mp degrees bench clock mode env0 0).attempted = [] ∧
    (∀ k, alookup (tune_for_djl_jumpstart mp degrees bench clock mode env0 0).env k =
      alookup env0 k) ∧
    (tune_for_tgi_jumpstart mp degrees bench clock mode env0 0).attempted = [] ∧
    (∀ k, alookup (tune_for_tgi_jumpstart mp degrees bench clock mode env0 0).env k =
      alookup env0 k) := by
  obtain ⟨h1, h2⟩ := tuneCore_zero_budget mp "OPTION_TENSOR_PARALLEL_DEGREE" degrees bench
    clock mode env0 hnd hck
  obtain ⟨h3, h4⟩ := tuneCore_zero_budget mp "SM_NUM_GPUS" degrees bench
    clock mode env0 hnd hck
  exact ⟨h1, h2, h3, h4⟩

/-- Witness for C5 at a concrete zero-budget run. -/
theorem claim_C5_witness :
    akeysNodup [("SM_NUM_GPUS", "4")] ∧
    ((fun n => n) 0 < (fun n => n) 1) ∧
    ((tune_for_djl_jumpstart (fun prev c => decide (c.avg_latency < prev.avg_latency)) [1, 2]
        (fun _ _ => Except.ok ⟨50, 60, 7, 8, 9⟩) (fun n => n)
        Mode.LOCAL_CONTAINER [("SM_NUM_GPUS", "4")] 0).attempted = []) ∧
    alookup (tune_for_tgi_jumpstart (fun prev c => decide (c.avg_latency < prev.avg_latency))
        [1, 2] (fun _ _ => Except.ok ⟨50, 60, 7, 8, 9⟩) (fun n => n)
        Mode.LOCAL_CONTAINER [("SM_NUM_GPUS", "4")] 0).env "SM_NUM_GPUS" =
      alookup [("SM_NUM_GPUS", "4")] "SM_NUM_GPUS" :=
  ⟨by unfold akeysNodup; decide, by decide,
    (claim_C5 (fun prev c => decide (c.avg_latency < prev.avg_latency)) [1, 2]
      (fun _ _ => Except.ok ⟨50, 60, 7, 8, 9⟩) (fun n => n)
      Mode.LOCAL_CONTAINER [("SM_NUM_GPUS", "4")] (by unfold akeysNodup; decide) (by decide)).1,
    ((claim_C5 (fun prev c => decide (c.avg_latency < prev.avg_latency)) [1, 2]
      (fun _ _ => Except.ok ⟨50, 60, 7, 8, 9⟩) (fun n => n)
      Mode.LOCAL_CONTAINER [("SM_NUM_GPUS", "4")] (by unfold akeysNodup; decide) (by decide)).2.2.2) "SM_NUM_GPUS"⟩

/-- C3: in a run of either tuning loop with at least one successfully
benchmarked candidate, the swept environment key of the returned model holds
exactly the degree of the candidate selected by folding the
`_more_performant` comparator over the successful candidates in sequence
order; that candidate is one of the successfully benchmarked (hence
attempted) candidates, never an untried value, and the env reflects it fully
(no partially-applied state). -/
theorem claim_C3 (mp : Combo → Combo → Bool) (degrees : List Nat)
    (bench : Nat → Nat → Except TuneFailure Bench) (clock : Nat → Nat) (mode : Mode)
    (env0 : List (String × String)) (mx : Nat)
    (scd sct : SuccCand) (restd restt : List SuccCand)
    (hsd : (tune_for_djl_jumpstart mp degrees bench clock mode env0 mx).succeeded =
      scd :: restd)
    (hst : (tune_for_tgi_jumpstart mp degrees bench clock mode env0 mx).succeeded =
      sct :: restt) :
    (∃ bc, foldBest mp none ((scd :: restd).map comboOf) = some bc ∧
      alookup (tune_for_djl_jumpstart mp degrees bench clock mode env0 mx).env
        "OPTION_TENSOR_PARALLEL_DEGREE" = some (toString bc.tensor_parallel_degree) ∧
      bc ∈ (scd :: restd).map comboOf ∧
      (∀ s0 ∈ scd :: restd, (s0.idx, s0.degree) ∈
        (tune_for_djl_jumpstart mp degrees bench clock mode env0 mx).attempted)) ∧
    (∃ bc, foldBest mp none ((sct :: restt).map comboOf) = some bc ∧
      alookup (tune_for_tgi_jumpstart mp degrees bench clock mode env0 mx).env
        "SM_NUM_GPUS" = some (toString bc.tensor_parallel_degree) ∧
      bc ∈ (sct :: restt).map comboOf ∧
      (∀ s0 ∈ sct :: restt, (s0.idx, s0.degree) ∈
        (tune_for_tgi_jumpstart mp degrees bench clock mode env0 mx).attempted)) :=
  ⟨tuneCore_success mp "OPTION_TENSOR_PARALLEL_DEGREE" degrees bench clock mode env0 mx
      scd restd hsd,
    tuneCore_success mp "SM_NUM_GPUS" degrees bench clock mode env0 mx sct restt hst⟩

/-- Witness for C3: a concrete run where both candidates succeed with
latencies 50 then 30 under the lower-latency-wins comparator. -/
theorem claim_C3_witness :
    ((tune_for_djl_jumpstart (fun prev c => decide (c.avg_latency < prev.avg_latency)) [1, 2]
        (fun i _ => Except.ok ⟨50 - 20 * i, 60, 7, 8, 9⟩) (fun n => n)
        Mode.LOCAL_CONTAINER [] 1800).succeeded =
      ⟨0, 1, ⟨50, 60, 7, 8, 9⟩, [("OPTION_TENSOR_PARALLEL_DEGREE", "1")]⟩ ::
        [⟨1, 2, ⟨30, 60, 7, 8, 9⟩, [("OPTION_TENSOR_PARALLEL_DEGREE", "2")]⟩]) ∧
    ((tune_for_tgi_jumpstart (fun prev c => decide (c.avg_latency < prev.avg_latency)) [1, 2]
        (fun i _ => Except.ok ⟨50 - 20 * i, 60, 7, 8, 9⟩) (fun n => n)
        Mode.LOCAL_CONTAINER [] 1800).succeeded =
      ⟨0, 1, ⟨50, 60, 7, 8, 9⟩, [("SM_NUM_GPUS", "1")]⟩ ::
        [⟨1, 2, ⟨30, 60, 7, 8, 9⟩, [("SM_NUM_GPUS", "2")]⟩]) ∧
    ((∃ bc, foldBest (fun prev c => decide (c.avg_latency < prev.avg_latency)) none
        (((⟨0, 1, ⟨50, 60, 7, 8, 9⟩, [("OPTION_TENSOR_PARALLEL_DEGREE", "1")]⟩ ::
          [⟨1, 2, ⟨30, 60, 7, 8, 9⟩, [("OPTION_TENSOR_PARALLEL_DEGREE", "2")]⟩]) :
            List SuccCand).map comboOf) =
          some bc ∧
      alookup (tune_for_djl_jumpstart (fun prev c => decide (c.avg_latency < prev.avg_latency))
          [1, 2] (fun i _ => Except.ok ⟨50 - 20 * i, 60, 7, 8, 9⟩) (fun n => n)
          Mode.LOCAL_CONTAINER [] 1800).env
        "OPTION_TENSOR_PARALLEL_DEGREE" = some (toString bc.tensor_parallel_degree) ∧
      bc ∈ ((⟨0, 1, ⟨50, 60, 7, 8, 9⟩, [("OPTION_TENSOR_PARALLEL_DEGREE", "1")]⟩ ::
          [⟨1, 2, ⟨30, 60, 7, 8, 9⟩, [("OPTION_TENSOR_PARALLEL_DEGREE", "2")]⟩]) :
            List SuccCand).map comboOf ∧
      (∀ s0 ∈ ((⟨0, 1, ⟨50, 60, 7, 8, 9⟩, [("OPTION_TENSOR_PARALLEL_DEGREE", "1")]⟩ ::
          [⟨1, 2, ⟨30, 60, 7, 8, 9⟩, [("OPTION_TENSOR_PARALLEL_DEGREE", "2")]⟩]) :
            List SuccCand),
        (s0.idx, s0.degree) ∈
          (tune_for_djl_jumpstart (fun prev c => decide (c.avg_latency < prev.avg_latency))
            [1, 2] (fun i _ => Except.ok ⟨50 - 20 * i, 60, 7, 8, 9⟩) (fun n => n)
            Mode.LOCAL_CONTAINER [] 1800).attempted))) :=
  ⟨by decide, by decide,
    (claim_C3 (fun prev c => decide (c.avg_latency < prev.avg_latency)) [1, 2]
      (fun i _ => Except.ok ⟨50 - 20 * i, 60, 7, 8, 9⟩) (fun n => n)
      Mode.LOCAL_CONTAINER [] 1800
      ⟨0, 1, ⟨50, 60, 7, 8, 9⟩, [("OPTION_TENSOR_PARALLEL_DEGREE", "1")]⟩
      ⟨0, 1, ⟨50, 60, 7, 8, 9⟩, [("SM_NUM_GPUS", "1")]⟩
      [⟨1, 2, ⟨30, 60, 7, 8, 9⟩, [("OPTION_TENSOR_PARALLEL_DEGREE", "2")]⟩]
      [⟨1, 2, ⟨30, 60, 7, 8, 9⟩, [("SM_NUM_GPUS", "2")]⟩]
      (by decide) (by decide)).1⟩

/-- C8: the benchmark-results table of either tuning loop is keyed by
average latency, so when two successful candidates share an average latency
the later one's row is what the table holds at that latency (the survivor is
the last success with that latency), and the table has strictly fewer rows
than there were successful candidates. -/
theorem claim_C8 (mp : Combo → Combo → Bool) (degrees : List Nat)
    (bench : Nat → Nat → Except TuneFailure Bench) (clock : Nat → Nat) (mode : Mode)
    (env0 : List (String × String)) (mx : Nat)
    (u1d u2d u3d u1t u2t u3t : List SuccCand) (s1d s2d s1t s2t : SuccCand)
    (hdd : (tune_for_djl_jumpstart mp degrees bench clock mode env0 mx).succeeded =
      u1d ++ s1d :: (u2d ++ s2d :: u3d))
    (hld : s1d.bench.avg_latency = s2d.bench.avg_latency)
    (hdt : (tune_for_tgi_jumpstart mp degrees bench clock mode env0 mx).succeeded =
      u1t ++ s1t :: (u2t ++ s2t :: u3t))
    (hlt : s1t.bench.avg_latency = s2t.bench.avg_latency) :
    (alookup (tune_for_djl_jumpstart mp degrees bench clock mode env0 mx).benchmark_results
        s1d.bench.avg_latency = lastRow (s2d :: u3d) s1d.bench.avg_latency ∧
      (tune_for_djl_jumpstart mp degrees bench clock mode env0 mx).benchmark_results.length <
        (tune_for_djl_jumpstart mp degrees bench clock mode env0 mx).succeeded.length) ∧
    (alookup (tune_for_tgi_jumpstart mp degrees bench clock mode env0 mx).benchmark_results
        s1t.bench.avg_latency = lastRow (s2t :: u3t) s1t.bench.avg_latency ∧
      (tune_for_tgi_jumpstart mp degrees bench clock mode env0 mx).benchmark_results.length <
        (tune_for_tgi_jumpstart mp degrees bench clock mode env0 mx).succeeded.length) :=
  ⟨tuneCore_table_overwrite mp "OPTION_TENSOR_PARALLEL_DEGREE" degrees bench clock mode env0
      mx u1d u2d u3d s1d s2d hdd hld,
    tuneCore_table_overwrite mp "SM_NUM_GPUS" degrees bench clock mode env0
      mx u1t u2t u3t s1t s2t hdt hlt⟩

/-- Witness for C8: two successful candidates with the same average latency
produce a one-row table out of two successes. -/
theorem claim_C8_witness :
    ((tune_for_djl_jumpstart (fun prev c => decide (c.avg_latency < prev.avg_latency)) [1, 2]
        (fun _ _ => Except.ok ⟨50, 60, 7, 8, 9⟩) (fun n => n)
        Mode.LOCAL_CONTAINER [] 1800).succeeded =
      [] ++ ⟨0, 1, ⟨50, 60, 7, 8, 9⟩, [("OPTION_TENSOR_PARALLEL_DEGREE", "1")]⟩ ::
        ([] ++ ⟨1, 2, ⟨50, 60, 7, 8, 9⟩, [("OPTION_TENSOR_PARALLEL_DEGREE", "2")]⟩ :: [])) ∧
    ((tune_for_tgi_jumpstart (fun prev c => decide (c.avg_latency < prev.avg_latency)) [1, 2]
        (fun _ _ => Except.ok ⟨50, 60, 7, 8, 9⟩) (fun n => n)
        Mode.LOCAL_CONTAINER [] 1800).succeeded =
      [] ++ ⟨0, 1, ⟨50, 60, 7, 8, 9⟩, [("SM_NUM_GPUS", "1")]⟩ ::
        ([] ++ ⟨1, 2, ⟨50, 60, 7, 8, 9⟩, [("SM_NUM_GPUS", "2")]⟩ :: [])) ∧
    ((tune_for_djl_jumpstart (fun prev c => decide (c.avg_latency < prev.avg_latency)) [1, 2]
        (fun _ _ => Except.ok ⟨50, 60, 7, 8, 9⟩) (fun n => n)
        Mode.LOCAL_CONTAINER [] 1800).benchmark_results.length <
      (tune_for_djl_jumpstart (fun prev c => decide (c.avg_latency < prev.avg_latency)) [1, 2]
        (fun _ _ => Except.ok ⟨50, 60, 7, 8, 9⟩) (fun n => n)
        Mode.LOCAL_CONTAINER [] 1800).succeeded.length) ∧
    ((tune_for_tgi_jumpstart (fun prev c => decide (c.avg_latency < prev.avg_latency)) [1, 2]
        (fun _ _ => Except.ok ⟨50, 60, 7, 8, 9⟩) (fun n => n)
        Mode.LOCAL_CONTAINER [] 1800).benchmark_results.length <
      (tune_for_tgi_jumpstart (fun prev c => decide (c.avg_latency < prev.avg_latency)) [1, 2]
        (fun _ _ => Except.ok ⟨50, 60, 7, 8, 9⟩) (fun n => n)
        Mode.LOCAL_CONTAINER [] 1800).succeeded.length) :=
  ⟨by decide, by decide,
    (claim_C8 (fun prev c => decide (c.avg_latency < prev.avg_latency)) [1, 2]
      (fun _ _ => Except.ok ⟨50, 60, 7, 8, 9⟩) (fun n => n)
      Mode.LOCAL_CONTAINER [] 1800 [] [] [] [] [] []
      ⟨0, 1, ⟨50, 60, 7, 8, 9⟩, [("OPTION_TENSOR_PARALLEL_DEGREE", "1")]⟩
      ⟨1, 2, ⟨50, 60, 7, 8, 9⟩, [("OPTION_TENSOR_PARALLEL_DEGREE", "2")]⟩
      ⟨0, 1, ⟨50, 60, 7, 8, 9⟩, [("SM_NUM_GPUS", "1")]⟩
      ⟨1, 2, ⟨50, 60, 7, 8, 9⟩, [("SM_NUM_GPUS", "2")]⟩
      (by decide) rfl (by decide) rfl).1.2,
    (claim_C8 (fun prev c => decide (c.avg_latency < prev.avg_latency)) [1, 2]
      (fun _ _ => Except.ok ⟨50, 60, 7, 8, 9⟩) (fun n => n)
      Mode.LOCAL_CONTAINER [] 1800 [] [] [] [] [] []
      ⟨0, 1, ⟨50, 60, 7, 8, 9⟩, [("OPTION_TENSOR_PARALLEL_DEGREE", "1")]⟩
      ⟨1, 2, ⟨50, 60, 7, 8, 9⟩, [("OPTION_TENSOR_PARALLEL_DEGREE", "2")]⟩
      ⟨0, 1, ⟨50, 60, 7, 8, 9⟩, [("SM_NUM_GPUS", "1")]⟩
      ⟨1, 2, ⟨50, 60, 7, 8, 9⟩, [("SM_NUM_GPUS", "2")]⟩
      (by decide) rfl (by decide) rfl).2.2⟩

/-- C7: a `PyTorch.__init__` distribution dictionary containing both
`pytorchddp` and `smdistributed` makes the constructor raise `ValueError`
with the descriptive message, for every possible validation function — the
error fires before the copy/rewrite and before `validate_distribution` is
consulted, so no rewritten distribution is produced or stored. -/
theorem claim_C7 (validate : Distribution → Except String Distribution) (d : Distribution)
    (h1 : acontains d "pytorchddp" = true) (h2 : acontains d "smdistributed" = true) :
    pytorchInitDistribution validate (some d) = Except.error bothDdpMessage := by
  rw [pytorchInitDistribution]
  simp [h1, h2]

/-- Witness for C7 at a concrete conflicting dictionary. -/
theorem claim_C7_witness :
    acontains [("pytorchddp", PyVal.dict [("enabled", PyVal.b true)]),
      ("smdistributed", PyVal.dict [("dataparallel", PyVal.b true)])] "pytorchddp" = true ∧
    acontains [("pytorchddp", PyVal.dict [("enabled", PyVal.b true)]),
      ("smdistributed", PyVal.dict [("dataparallel", PyVal.b true)])] "smdistributed" = true ∧
    pytorchInitDistribution (fun d2 => Except.ok d2)
      (some [("pytorchddp", PyVal.dict [("enabled", PyVal.b true)]),
        ("smdistributed", PyVal.dict [("dataparallel", PyVal.b true)])]) =
      Except.error bothDdpMessage :=
  ⟨rfl, rfl,
    claim_C7 (fun d2 => Except.ok d2)
      [("pytorchddp", PyVal.dict [("enabled", PyVal.b true)]),
        ("smdistributed", PyVal.dict [("dataparallel", PyVal.b true)])] rfl rfl⟩

/-- C9: when the distribution dictionary contains `pytorchddp` but not
`smdistributed`, the stored `self.distribution` carries the same settings
under `smdistributed` as a `dataparallel` entry and has no `pytorchddp` key,
while the caller's dictionary object (second component) is returned exactly
as supplied, because the rewrite operates on a copy.  The input dictionary
is assumed well-formed (no duplicate keys). -/
theorem claim_C9 (d : Distribution) (v : PyVal)
    (hnd : akeysNodup d)
    (hp : alookup d "pytorchddp" = some v)
    (hs : acontains d "smdistributed" = false) :
    ∃ stored,
      pytorchInitDistribution validate_distribution (some d) =
        Except.ok (stored, some d) ∧
      alookup stored "smdistributed" = some (PyVal.dict [("dataparallel", v)]) ∧
      acontains stored "pytorchddp" = false := by
  have hcp : acontains d "pytorchddp" = true := by
    rw [acontains, hp]
    rfl
  have hndr : akeysNodup (ainsert d "smdistributed" (PyVal.dict [("dataparallel", v)])) :=
    akeysNodup_ainsert d "smdistributed" (PyVal.dict [("dataparallel", v)]) hnd
  have herase : alookup
      (aerase (ainsert d "smdistributed" (PyVal.dict [("dataparallel", v)])) "pytorchddp")
      "pytorchddp" = none :=
    alookup_aerase_self (ainsert d "smdistributed" (PyVal.dict [("dataparallel", v)]))
      "pytorchddp" hndr
  have hcontp : acontains
      (aerase (ainsert d "smdistributed" (PyVal.dict [("dataparallel", v)])) "pytorchddp")
      "pytorchddp" = false := by
    rw [acontains, herase]
    rfl
  have hval : validate_distribution
      (aerase (ainsert d "smdistributed" (PyVal.dict [("dataparallel", v)])) "pytorchddp") =
      Except.ok
        (aerase (ainsert d "smdistributed" (PyVal.dict [("dataparallel", v)])) "pytorchddp") := by
    rw [validate_distribution, if_neg]
    intro hcontra
    rw [hcontp] at hcontra
    exact Bool.noConfusion hcontra.1
  refine ⟨aerase (ainsert d "smdistributed" (PyVal.dict [("dataparallel", v)])) "pytorchddp",
    ?_, ?_, hcontp⟩
  · rw [pytorchInitDistribution]
    simp only [hcp, hs, if_true, if_false, Bool.false_eq_true]
    rw [hp]
    simp only [Option.getD_some]
    rw [hval]
  · rw [alookup_aerase_ne _ "pytorchddp" "smdistributed" (by decide)]
    exact alookup_ainsert_self d "smdistributed" (PyVal.dict [("dataparallel", v)])

/-- Witness for C9 at a concrete dictionary with only `pytorchddp`. -/
theorem claim_C9_witness :
    akeysNodup [("pytorchddp", PyVal.dict [("enabled", PyVal.b true)])] ∧
    alookup [("pytorchddp", PyVal.dict [("enabled", PyVal.b true)])] "pytorchddp" =
      some (PyVal.dict [("enabled", PyVal.b true)]) ∧
    acontains [("pytorchddp", PyVal.dict [("enabled", PyVal.b true)])] "smdistributed" = false ∧
    (∃ stored,
      pytorchInitDistribution validate_distribution
        (some [("pytorchddp", PyVal.dict [("enabled", PyVal.b true)])]) =
        Except.ok (stored, some [("pytorchddp", PyVal.dict [("enabled", PyVal.b true)])]) ∧
      alookup stored "smdistributed" =
        some (PyVal.dict [("dataparallel", PyVal.dict [("enabled", PyVal.b true)])]) ∧
      acontains stored "pytorchddp" = false) :=
  ⟨by unfold akeysNodup; decide, rfl, rfl,
    claim_C9 [("pytorchddp", PyVal.dict [("enabled", PyVal.b true)])]
      (PyVal.dict [("enabled", PyVal.b true)])
      (by unfold akeysNodup; decide) rfl rfl⟩

/-- C10: in `PyTorch._pytorch_distribution_configuration`, when the
dictionary holds both `pytorchddp` and `torch_distributed`, only the
`pytorchddp` arm of the key dispatch runs: the `torch_distributed` flag is
left at its initial `False` whatever value is stored under that key (it is
never read), and the torch-distributed launcher environment name is absent
from the returned configuration — given that the base
`Framework._distribution_configuration` (outside `src/`) never emits that
name either. -/
theorem claim_C10 (base : Distribution → List (String × PyVal)) (instance_type : Option String)
    (d : Distribution)
    (hp : acontains d "pytorchddp" = true)
    (ht : acontains d "torch_distributed" = true)
    (hbase : ∀ d2, alookup (base d2) LAUNCH_TORCH_DISTRIBUTED_ENV_NAME = none) :
    torchDistributedEnabledIn d = false ∧
    alookup (pytorch_distribution_configuration base instance_type d)
      LAUNCH_TORCH_DISTRIBUTED_ENV_NAME = none := by
  have hflag : torchDistributedEnabledIn d = false := by
    rw [torchDistributedEnabledIn]
    simp [hp]
  refine ⟨hflag, ?_⟩
  rw [pytorch_distribution_configuration]
  by_cases hdd : pytorchDdpEnabledIn d = true
  · simp only [hdd, if_true]
    cases instance_type with
    | none => rfl
    | some it => rfl
  · have hdd2 : pytorchDdpEnabledIn d = false := by
      revert hdd
      cases pytorchDdpEnabledIn d <;> simp
    simp only [hdd2, hflag, Bool.false_eq_true, if_false]
    exact hbase d

/-- Witness for C10 at a concrete dictionary holding both keys, with an
empty base configuration. -/
theorem claim_C10_witness :
    acontains [("pytorchddp", PyVal.dict [("enabled", PyVal.b true)]),
      ("torch_distributed", PyVal.dict [("enabled", PyVal.b true)])] "pytorchddp" = true ∧
    acontains [("pytorchddp", PyVal.dict [("enabled", PyVal.b true)]),
      ("torch_distributed", PyVal.dict [("enabled", PyVal.b true)])] "torch_distributed" = true ∧
    (torchDistributedEnabledIn [("pytorchddp", PyVal.dict [("enabled", PyVal.b true)]),
      ("torch_distributed", PyVal.dict [("enabled", PyVal.b true)])] = false ∧
    alookup (pytorch_distribution_configuration (fun _ => []) none
        [("pytorchddp", PyVal.dict [("enabled", PyVal.b true)]),
          ("torch_distributed", PyVal.dict [("enabled", PyVal.b true)])])
      LAUNCH_TORCH_DISTRIBUTED_ENV_NAME = none) :=
  ⟨rfl, rfl,
    claim_C10 (fun _ => []) none
      [("pytorchddp", PyVal.dict [("enabled", PyVal.b true)]),
        ("torch_distributed", PyVal.dict [("enabled", PyVal.b true)])]
      rfl rfl (fun _ => rfl)⟩
